import Mathlib

/-
Verification of the rexwa WhatsApp-Telegram bridge.

This file embeds, as executable Lean definitions, the parts of the source
that the specification talks about:
  - the InMemoryStore of src/core/store.js (PN-LID bidirectional table,
    contact/chat/message upserts, load/loadFromFile persistence recovery);
  - the TelegramBridge of the bridge module (topic creation and its
    concurrency-dedup via creatingTopics, the purge-and-recreate recovery
    of sendSimpleMessage and handleWhatsAppMedia, the read-receipt
    batcher queueMessageForReadReceipt / processReadReceipts).
JavaScript dictionaries are modelled as functions into Option or as
association lists, JS object values as a JSON value tree, and the JS
event loop as explicit interleaving of atomic segments between await
points.
-/

set_option maxRecDepth 4000

/-- Character-list prefix test: does the first list lead the second? -/
def leadMatch : List Char → List Char → Bool
  | [], _ => true
  | _ :: _, [] => false
  | a :: as, b :: bs => a == b && leadMatch as bs

/-- Character-list substring occurrence test. -/
def memSub : List Char → List Char → Bool
  | pat, [] => leadMatch pat []
  | pat, l@(_ :: rest) => leadMatch pat l || memSub pat rest

/-- Embedding of the JavaScript expression s.includes(sub). -/
def jsIncludes (s sub : String) : Bool := memSub sub.data s.data

/-- The literal that the store uses to recognise a PN-shaped JID. -/
def waNet : String := "@s.whatsapp.net"

/-- The lidMapping field of InMemoryStore, a JS object used as a dictionary. -/
def LidMap := String → Option String

/-- The lidMapping object of a freshly constructed store. -/
def emptyLidMap : LidMap := fun _ => none

/-- The pair of assignments this.lidMapping[pn] = lid; this.lidMapping[lid] = pn. -/
def lidWrite (pn lid : String) (m : LidMap) : LidMap :=
  fun k => if k = lid then some pn else if k = pn then some lid else m k

/-- InMemoryStore.storeLIDPNMapping of src/core/store.js: guard on falsy
arguments, then write both directions. -/
def storeLIDPNMapping (pn lid : String) (m : LidMap) : LidMap :=
  if pn = "" ∨ lid = "" then m else lidWrite pn lid m

/-- InMemoryStore.storeLIDPNMappings of src/core/store.js: iterate the
entries, writing both directions for each truthy pair. -/
def storeLIDPNMappings (ps : List (String × String)) (m : LidMap) : LidMap :=
  ps.foldl (fun acc p => if p.1 = "" ∨ p.2 = "" then acc else lidWrite p.1 p.2 acc) m

/-- InMemoryStore.getLIDForPN of src/core/store.js: falsy argument gives
null; the stored counterpart is returned only when truthy and not
containing the PN marker. -/
def getLIDForPN (m : LidMap) (pn : String) : Option String :=
  if pn = "" then none else
  match m pn with
  | none => none
  | some lid => if lid = "" then none else if jsIncludes lid waNet then none else some lid

/-- InMemoryStore.getPNForLID of src/core/store.js: falsy argument gives
null; the stored counterpart is returned only when truthy and containing
the PN marker. -/
def getPNForLID (m : LidMap) (lid : String) : Option String :=
  if lid = "" then none else
  match m lid with
  | none => none
  | some pn => if pn = "" then none else if jsIncludes pn waNet then some pn else none

lemma jsIncludes_empty_left : jsIncludes "" waNet = false := by decide

lemma ne_empty_of_includes_waNet {s : String} (h : jsIncludes s waNet = true) : s ≠ "" := by
  intro he
  rw [he, jsIncludes_empty_left] at h
  exact Bool.false_ne_true h

lemma storeLIDPNMappings_preserves (ops : List (String × String)) (m : LidMap) (k : String)
    (h : ∀ p ∈ ops, p.1 ≠ k ∧ p.2 ≠ k) :
    storeLIDPNMappings ops m k = m k := by
  induction ops generalizing m with
  | nil => rfl
  | cons p ps ih =>
    have hp := h p (List.mem_cons_self p ps)
    have hps : ∀ q ∈ ps, q.1 ≠ k ∧ q.2 ≠ k := fun q hq => h q (List.mem_cons_of_mem p hq)
    show storeLIDPNMappings ps (if p.1 = "" ∨ p.2 = "" then m else lidWrite p.1 p.2 m) k = m k
    rw [ih _ hps]
    by_cases hg : p.1 = "" ∨ p.2 = ""
    · simp [hg]
    · simp only [hg, if_false, lidWrite]
      rw [if_neg (fun he => hp.2 he.symm), if_neg (fun he => hp.1 he.symm)]

/-- C1: for a non-empty PN-shaped address pn and a non-empty LID-shaped
address lid, after storeLIDPNMapping(pn, lid) and any sequence of later
mapping writes that touch neither pn nor lid, getLIDForPN(pn) returns lid
and getPNForLID(lid) returns pn. -/
theorem storeLIDPNMapping_roundtrip (m : LidMap) (pn lid : String)
    (hpn : jsIncludes pn waNet = true) (hlid : lid ≠ "")
    (hl : jsIncludes lid waNet = false)
    (ops : List (String × String))
    (hops : ∀ p ∈ ops, (p.1 ≠ pn ∧ p.1 ≠ lid) ∧ (p.2 ≠ pn ∧ p.2 ≠ lid)) :
    getLIDForPN (storeLIDPNMappings ops (storeLIDPNMapping pn lid m)) pn = some lid ∧
    getPNForLID (storeLIDPNMappings ops (storeLIDPNMapping pn lid m)) lid = some pn := by
  have hpne : pn ≠ "" := ne_empty_of_includes_waNet hpn
  have hpl : pn ≠ lid := by
    intro he; rw [he, hl] at hpn; exact Bool.false_ne_true hpn
  have hstore : storeLIDPNMapping pn lid m = lidWrite pn lid m := by
    unfold storeLIDPNMapping
    rw [if_neg]; rintro (h | h) <;> [exact hpne h; exact hlid h]
  have hops1 : ∀ p ∈ ops, p.1 ≠ pn ∧ p.2 ≠ pn := fun p hp => ⟨(hops p hp).1.1, (hops p hp).2.1⟩
  have hops2 : ∀ p ∈ ops, p.1 ≠ lid ∧ p.2 ≠ lid := fun p hp => ⟨(hops p hp).1.2, (hops p hp).2.2⟩
  have hmpn : storeLIDPNMappings ops (storeLIDPNMapping pn lid m) pn = some lid := by
    rw [storeLIDPNMappings_preserves ops _ pn hops1, hstore]
    show (if pn = lid then some pn else if pn = pn then some lid else m pn) = some lid
    rw [if_neg hpl, if_pos rfl]
  have hmlid : storeLIDPNMappings ops (storeLIDPNMapping pn lid m) lid = some pn := by
    rw [storeLIDPNMappings_preserves ops _ lid hops2, hstore]
    show (if lid = lid then some pn else if lid = pn then some lid else m lid) = some pn
    rw [if_pos rfl]
  constructor
  · unfold getLIDForPN
    rw [if_neg hpne, hmpn]
    simp only [hlid, if_false, hl, Bool.false_eq_true, if_neg]
  · unfold getPNForLID
    rw [if_neg hlid, hmlid]
    simp only [hpne, if_false, hpn, if_pos]

/-- C1 witness: the round-trip theorem evaluated at a concrete pair and a
concrete later write touching neither address. -/
theorem storeLIDPNMapping_roundtrip_witness :
    getLIDForPN
      (storeLIDPNMappings [("222@s.whatsapp.net", "bbb@lid")]
        (storeLIDPNMapping "111@s.whatsapp.net" "aaa@lid" emptyLidMap))
      "111@s.whatsapp.net" = some "aaa@lid" ∧
    getPNForLID
      (storeLIDPNMappings [("222@s.whatsapp.net", "bbb@lid")]
        (storeLIDPNMapping "111@s.whatsapp.net" "aaa@lid" emptyLidMap))
      "aaa@lid" = some "111@s.whatsapp.net" :=
  storeLIDPNMapping_roundtrip emptyLidMap "111@s.whatsapp.net" "aaa@lid"
    (by decide) (by decide) (by decide)
    [("222@s.whatsapp.net", "bbb@lid")] (by decide)

/-- C2 counterexample: after storeLIDPNMapping(pn, lid) followed by
storeLIDPNMapping(pn, lid2), the forward direction holds the newer pair,
but the stale reverse entry for lid is never removed: getPNForLID(lid)
still returns pn, contradicting the claim that the table holds no stale
reverse entry for lid. -/
theorem storeLIDPNMapping_overwrite_cex :
    getLIDForPN
      (storeLIDPNMapping "111@s.whatsapp.net" "bbb@lid"
        (storeLIDPNMapping "111@s.whatsapp.net" "aaa@lid" emptyLidMap))
      "111@s.whatsapp.net" = some "bbb@lid" ∧
    getPNForLID
      (storeLIDPNMapping "111@s.whatsapp.net" "bbb@lid"
        (storeLIDPNMapping "111@s.whatsapp.net" "aaa@lid" emptyLidMap))
      "aaa@lid" = some "111@s.whatsapp.net" := by
  constructor <;> decide

/-- C2 amended: a later storeLIDPNMapping(pn, lid2) makes the forward
direction consistent with the newer pair (getLIDForPN(pn) = lid2 and
getPNForLID(lid2) = pn), but the stale reverse entry for the old lid
persists: getPNForLID(lid) still returns pn. -/
theorem storeLIDPNMapping_overwrite (m : LidMap) (pn lid lid2 : String)
    (hpn : jsIncludes pn waNet = true)
    (h1 : lid ≠ "") (h2 : lid2 ≠ "")
    (hi1 : jsIncludes lid waNet = false) (hi2 : jsIncludes lid2 waNet = false)
    (hne : lid ≠ lid2) :
    getLIDForPN (storeLIDPNMapping pn lid2 (storeLIDPNMapping pn lid m)) pn = some lid2 ∧
    getPNForLID (storeLIDPNMapping pn lid2 (storeLIDPNMapping pn lid m)) lid2 = some pn ∧
    getPNForLID (storeLIDPNMapping pn lid2 (storeLIDPNMapping pn lid m)) lid = some pn := by
  have hpne : pn ≠ "" := ne_empty_of_includes_waNet hpn
  have hpl1 : pn ≠ lid := by
    intro he; rw [he, hi1] at hpn; exact Bool.false_ne_true hpn
  have hpl2 : pn ≠ lid2 := by
    intro he; rw [he, hi2] at hpn; exact Bool.false_ne_true hpn
  have hs1 : storeLIDPNMapping pn lid m = lidWrite pn lid m := by
    unfold storeLIDPNMapping
    rw [if_neg]; rintro (h | h) <;> [exact hpne h; exact h1 h]
  have hs2 : ∀ m2, storeLIDPNMapping pn lid2 m2 = lidWrite pn lid2 m2 := by
    intro m2; unfold storeLIDPNMapping
    rw [if_neg]; rintro (h | h) <;> [exact hpne h; exact h2 h]
  rw [hs1, hs2]
  have hval_pn : lidWrite pn lid2 (lidWrite pn lid m) pn = some lid2 := by
    show (if pn = lid2 then some pn else if pn = pn then some lid2 else _) = some lid2
    rw [if_neg hpl2, if_pos rfl]
  have hval_lid2 : lidWrite pn lid2 (lidWrite pn lid m) lid2 = some pn := by
    show (if lid2 = lid2 then some pn else _) = some pn
    rw [if_pos rfl]
  have hval_lid : lidWrite pn lid2 (lidWrite pn lid m) lid = some pn := by
    show (if lid = lid2 then some pn else if lid = pn then some lid2 else
      lidWrite pn lid m lid) = some pn
    rw [if_neg hne, if_neg (fun he => hpl1 he.symm)]
    show (if lid = lid then some pn else _) = some pn
    rw [if_pos rfl]
  refine ⟨?_, ?_, ?_⟩
  · unfold getLIDForPN
    rw [if_neg hpne, hval_pn]
    simp only [h2, if_false, hi2, Bool.false_eq_true, if_neg]
  · unfold getPNForLID
    rw [if_neg h2, hval_lid2]
    simp only [hpne, if_false, hpn, if_pos]
  · unfold getPNForLID
    rw [if_neg h1, hval_lid]
    simp only [hpne, if_false, hpn, if_pos]

/-- C2 amended witness: the overwrite theorem evaluated at concrete
addresses. -/
theorem storeLIDPNMapping_overwrite_witness :
    getLIDForPN
      (storeLIDPNMapping "111@s.whatsapp.net" "bbb@lid"
        (storeLIDPNMapping "111@s.whatsapp.net" "aaa@lid" emptyLidMap))
      "111@s.whatsapp.net" = some "bbb@lid" ∧
    getPNForLID
      (storeLIDPNMapping "111@s.whatsapp.net" "bbb@lid"
        (storeLIDPNMapping "111@s.whatsapp.net" "aaa@lid" emptyLidMap))
      "bbb@lid" = some "111@s.whatsapp.net" ∧
    getPNForLID
      (storeLIDPNMapping "111@s.whatsapp.net" "bbb@lid"
        (storeLIDPNMapping "111@s.whatsapp.net" "aaa@lid" emptyLidMap))
      "aaa@lid" = some "111@s.whatsapp.net" :=
  storeLIDPNMapping_overwrite emptyLidMap "111@s.whatsapp.net" "aaa@lid" "bbb@lid"
    (by decide) (by decide) (by decide) (by decide) (by decide) (by decide)

/-- C10 counterexample: a pair stored with a PN-shaped second component is
not invisible to both lookups: with both components PN-shaped, the pair is
in the table and getPNForLID returns the counterpart at either key. -/
theorem lid_lookup_visibility_cex :
    storeLIDPNMapping "111@s.whatsapp.net" "222@s.whatsapp.net" emptyLidMap
      "111@s.whatsapp.net" = some "222@s.whatsapp.net" ∧
    getPNForLID (storeLIDPNMapping "111@s.whatsapp.net" "222@s.whatsapp.net" emptyLidMap)
      "111@s.whatsapp.net" = some "222@s.whatsapp.net" ∧
    getPNForLID (storeLIDPNMapping "111@s.whatsapp.net" "222@s.whatsapp.net" emptyLidMap)
      "222@s.whatsapp.net" = some "111@s.whatsapp.net" ∧
    getLIDForPN (storeLIDPNMapping "111@s.whatsapp.net" "222@s.whatsapp.net" emptyLidMap)
      "111@s.whatsapp.net" = none := by
  refine ⟨?_, ?_, ?_, ?_⟩ <;> decide

/-- C10 amended: the lookups are shape-guarded, not pure table reads:
getLIDForPN(a) returns the stored counterpart exactly when the argument
and the counterpart are truthy and the counterpart does not contain the
PN marker, and getPNForLID(a) exactly when it does contain it.
Consequently a stored pair whose second component is PN-shaped is
invisible to getLIDForPN at its first key, yet it is not invisible to
both lookups: getPNForLID at the first key returns the second component. -/
theorem lid_lookup_shape_guarded (m : LidMap) (a v pn lid : String)
    (hpn : pn ≠ "") (hlid : jsIncludes lid waNet = true) (hne : pn ≠ lid) :
    (getLIDForPN m a = some v ↔
      (a ≠ "" ∧ m a = some v ∧ v ≠ "" ∧ jsIncludes v waNet = false)) ∧
    (getPNForLID m a = some v ↔
      (a ≠ "" ∧ m a = some v ∧ v ≠ "" ∧ jsIncludes v waNet = true)) ∧
    (storeLIDPNMapping pn lid m pn = some lid ∧
     getLIDForPN (storeLIDPNMapping pn lid m) pn = none ∧
     getPNForLID (storeLIDPNMapping pn lid m) pn = some lid) := by
  have hlidne : lid ≠ "" := ne_empty_of_includes_waNet hlid
  refine ⟨?_, ?_, ?_⟩
  · unfold getLIDForPN
    by_cases ha : a = ""
    · simp [ha]
    · rw [if_neg ha]
      cases hma : m a with
      | none => simp
      | some w =>
        show (if w = "" then none else if jsIncludes w waNet = true then none else some w)
            = some v ↔ a ≠ "" ∧ some w = some v ∧ v ≠ "" ∧ jsIncludes v waNet = false
        by_cases hw : w = ""
        · rw [if_pos hw]
          constructor
          · intro h; exact absurd h (by simp)
          · rintro ⟨_, heq, hv, _⟩
            rw [Option.some_inj] at heq
            subst heq
            exact absurd hw hv
        · rw [if_neg hw]
          by_cases hincl : jsIncludes w waNet = true
          · rw [if_pos hincl]
            constructor
            · intro h; exact absurd h (by simp)
            · rintro ⟨_, heq, _, hf⟩
              rw [Option.some_inj] at heq
              subst heq
              rw [hincl] at hf
              exact absurd hf (by simp)
          · rw [Bool.not_eq_true] at hincl
            rw [if_neg (by simp [hincl])]
            constructor
            · intro h
              rw [Option.some_inj] at h
              subst h
              exact ⟨ha, rfl, hw, hincl⟩
            · rintro ⟨_, heq, _, _⟩
              exact heq
  · unfold getPNForLID
    by_cases ha : a = ""
    · simp [ha]
    · rw [if_neg ha]
      cases hma : m a with
      | none => simp
      | some w =>
        show (if w = "" then none else if jsIncludes w waNet = true then some w else none)
            = some v ↔ a ≠ "" ∧ some w = some v ∧ v ≠ "" ∧ jsIncludes v waNet = true
        by_cases hw : w = ""
        · rw [if_pos hw]
          constructor
          · intro h; exact absurd h (by simp)
          · rintro ⟨_, heq, hv, _⟩
            rw [Option.some_inj] at heq
            subst heq
            exact absurd hw hv
        · rw [if_neg hw]
          by_cases hincl : jsIncludes w waNet = true
          · rw [if_pos hincl]
            constructor
            · intro h
              rw [Option.some_inj] at h
              subst h
              exact ⟨ha, rfl, hw, hincl⟩
            · rintro ⟨_, heq, _, _⟩
              exact heq
          · rw [Bool.not_eq_true] at hincl
            rw [if_neg (by simp [hincl])]
            constructor
            · intro h; exact absurd h (by simp)
            · rintro ⟨_, heq, _, ht⟩
              rw [Option.some_inj] at heq
              subst heq
              rw [hincl] at ht
              exact absurd ht (by simp)
  · have hstore : storeLIDPNMapping pn lid m = lidWrite pn lid m := by
      unfold storeLIDPNMapping
      rw [if_neg]; rintro (h | h) <;> [exact hpn h; exact hlidne h]
    have hval : lidWrite pn lid m pn = some lid := by
      show (if pn = lid then some pn else if pn = pn then some lid else m pn) = some lid
      rw [if_neg hne, if_pos rfl]
    refine ⟨by rw [hstore]; exact hval, ?_, ?_⟩
    · unfold getLIDForPN
      rw [if_neg hpn, hstore, hval]
      simp only [hlidne, if_false, hlid, if_pos]
    · unfold getPNForLID
      rw [if_neg hpn, hstore, hval]
      simp only [hlidne, if_false, hlid, if_pos]

/-- C10 amended witness: the shape-guard theorem evaluated at a concrete
map and a concrete PN-shaped pair. -/
theorem lid_lookup_shape_guarded_witness :
    (getLIDForPN emptyLidMap "x@lid" = some "y@lid" ↔
      ("x@lid" ≠ "" ∧ emptyLidMap "x@lid" = some "y@lid" ∧ "y@lid" ≠ "" ∧
        jsIncludes "y@lid" waNet = false)) ∧
    (getPNForLID emptyLidMap "x@lid" = some "y@lid" ↔
      ("x@lid" ≠ "" ∧ emptyLidMap "x@lid" = some "y@lid" ∧ "y@lid" ≠ "" ∧
        jsIncludes "y@lid" waNet = true)) ∧
    (storeLIDPNMapping "111@s.whatsapp.net" "222@s.whatsapp.net" emptyLidMap
        "111@s.whatsapp.net" = some "222@s.whatsapp.net" ∧
     getLIDForPN (storeLIDPNMapping "111@s.whatsapp.net" "222@s.whatsapp.net" emptyLidMap)
        "111@s.whatsapp.net" = none ∧
     getPNForLID (storeLIDPNMapping "111@s.whatsapp.net" "222@s.whatsapp.net" emptyLidMap)
        "111@s.whatsapp.net" = some "222@s.whatsapp.net") :=
  lid_lookup_shape_guarded emptyLidMap "x@lid" "y@lid"
    "111@s.whatsapp.net" "222@s.whatsapp.net" (by decide) (by decide) (by decide)

/-- JSON-representable JavaScript values, as produced by JSON.parse and
held by the store's collections. -/
inductive JsVal where
  | null
  | bool (b : Bool)
  | num (n : Int)
  | str (s : String)
  | arr (xs : List JsVal)
  | obj (fields : List (String × JsVal))

/-- JavaScript truthiness of a JSON value. -/
def jsTruthy : JsVal → Bool
  | .null => false
  | .bool b => b
  | .num n => n != 0
  | .str s => s != ""
  | .arr _ => true
  | .obj _ => true

/-- The JS expression v || d for an optional serialized field v: the field
when present and truthy, the default otherwise. -/
def jsOr (v : Option JsVal) (d : JsVal) : JsVal :=
  match v with
  | some x => if jsTruthy x then x else d
  | none => d

/-- Default value of the poll_message field of InMemoryStore. -/
def pollDefault : JsVal := .obj [("message", .arr [])]

/-- The collection fields of InMemoryStore (src/core/store.js constructor). -/
structure InMemoryStore where
  contacts : JsVal
  chats : JsVal
  messages : JsVal
  presences : JsVal
  groupMetadata : JsVal
  callOffer : JsVal
  stickerPacks : JsVal
  authState : JsVal
  syncedHistory : JsVal
  poll_message : JsVal
  lidMapping : JsVal

/-- A freshly constructed InMemoryStore: every collection empty, the
poll_message field at its default. -/
def freshStore : InMemoryStore :=
  { contacts := .obj [], chats := .obj [], messages := .obj [], presences := .obj []
  , groupMetadata := .obj [], callOffer := .obj [], stickerPacks := .obj []
  , authState := .obj [], syncedHistory := .obj [], poll_message := pollDefault
  , lidMapping := .obj [] }

/-- The parsed persisted state: each serialized field may be absent. -/
structure SerializedState where
  contacts : Option JsVal
  chats : Option JsVal
  messages : Option JsVal
  presences : Option JsVal
  groupMetadata : Option JsVal
  callOffer : Option JsVal
  stickerPacks : Option JsVal
  authState : Option JsVal
  syncedHistory : Option JsVal
  poll_message : Option JsVal
  lidMapping : Option JsVal

/-- InMemoryStore.load of src/core/store.js: Object.assign of each
collection from the serialized field with a fallback default. -/
def InMemoryStore.load (state : SerializedState) : InMemoryStore :=
  { contacts := jsOr state.contacts (.obj [])
  , chats := jsOr state.chats (.obj [])
  , messages := jsOr state.messages (.obj [])
  , presences := jsOr state.presences (.obj [])
  , groupMetadata := jsOr state.groupMetadata (.obj [])
  , callOffer := jsOr state.callOffer (.obj [])
  , stickerPacks := jsOr state.stickerPacks (.obj [])
  , authState := jsOr state.authState (.obj [])
  , syncedHistory := jsOr state.syncedHistory (.obj [])
  , poll_message := jsOr state.poll_message pollDefault
  , lidMapping := jsOr state.lidMapping (.obj []) }

/-- The state of the persisted file as seen by loadFromFile: absent,
unreadable (readFileSync throws), corrupt (JSON.parse throws), or a
successfully parsed state. -/
inductive FileState where
  | missing
  | unreadable
  | corrupt (raw : String)
  | valid (st : SerializedState)

/-- InMemoryStore.loadFromFile of src/core/store.js: the try-catch around
existsSync, readFileSync and JSON.parse leaves the store untouched on a
missing, unreadable or corrupt file, and delegates to load on success.
Totality of this function is the no-throw guarantee; the catch branches
log and continue. -/
def InMemoryStore.loadFromFile : FileState → InMemoryStore → InMemoryStore
  | .missing, s => s
  | .unreadable, s => s
  | .corrupt _, s => s
  | .valid st, _ => InMemoryStore.load st

/-- C6: restoring the store at startup never throws. On a missing,
unreadable or corrupt persisted file the store is left as constructed,
with every collection empty and poll_message at its default; on a parsed
file each collection is its default exactly when the serialized field is
absent (and is the serialized value when present and truthy). -/
theorem loadFromFile_tolerant (raw : String) (st : SerializedState) :
    InMemoryStore.loadFromFile .missing freshStore = freshStore ∧
    InMemoryStore.loadFromFile .unreadable freshStore = freshStore ∧
    InMemoryStore.loadFromFile (.corrupt raw) freshStore = freshStore ∧
    (freshStore.contacts = .obj [] ∧ freshStore.chats = .obj [] ∧
     freshStore.messages = .obj [] ∧ freshStore.presences = .obj [] ∧
     freshStore.groupMetadata = .obj [] ∧ freshStore.callOffer = .obj [] ∧
     freshStore.stickerPacks = .obj [] ∧ freshStore.authState = .obj [] ∧
     freshStore.syncedHistory = .obj [] ∧ freshStore.poll_message = pollDefault ∧
     freshStore.lidMapping = .obj []) ∧
    (st.contacts = none → (InMemoryStore.load st).contacts = .obj []) ∧
    (st.chats = none → (InMemoryStore.load st).chats = .obj []) ∧
    (st.messages = none → (InMemoryStore.load st).messages = .obj []) ∧
    (st.presences = none → (InMemoryStore.load st).presences = .obj []) ∧
    (st.groupMetadata = none → (InMemoryStore.load st).groupMetadata = .obj []) ∧
    (st.callOffer = none → (InMemoryStore.load st).callOffer = .obj []) ∧
    (st.stickerPacks = none → (InMemoryStore.load st).stickerPacks = .obj []) ∧
    (st.authState = none → (InMemoryStore.load st).authState = .obj []) ∧
    (st.syncedHistory = none → (InMemoryStore.load st).syncedHistory = .obj []) ∧
    (st.poll_message = none → (InMemoryStore.load st).poll_message = pollDefault) ∧
    (st.lidMapping = none → (InMemoryStore.load st).lidMapping = .obj []) ∧
    (∀ v, st.contacts = some v → jsTruthy v = true → (InMemoryStore.load st).contacts = v) ∧
    (∀ v, st.chats = some v → jsTruthy v = true → (InMemoryStore.load st).chats = v) ∧
    (∀ v, st.messages = some v → jsTruthy v = true → (InMemoryStore.load st).messages = v) ∧
    (∀ v, st.lidMapping = some v → jsTruthy v = true → (InMemoryStore.load st).lidMapping = v) := by
  refine ⟨rfl, rfl, rfl, ⟨rfl, rfl, rfl, rfl, rfl, rfl, rfl, rfl, rfl, rfl, rfl⟩,
    ?_, ?_, ?_, ?_, ?_, ?_, ?_, ?_, ?_, ?_, ?_, ?_, ?_, ?_, ?_⟩
  all_goals first
    | (intro h; simp [InMemoryStore.load, jsOr, h])
    | (intro v h ht; simp [InMemoryStore.load, jsOr, h, ht])

/-- A concrete parsed persisted state with some fields present and some
absent, for the C6 witness. -/
def serializedSample : SerializedState :=
  { contacts := some (.obj [("17@s.whatsapp.net", .obj [("id", .str "17@s.whatsapp.net")])])
  , chats := none, messages := none, presences := none, groupMetadata := none
  , callOffer := none, stickerPacks := none, authState := none, syncedHistory := none
  , poll_message := none
  , lidMapping := some (.obj [("17@s.whatsapp.net", .str "9@lid")]) }

/-- C6 witness: the tolerance theorem evaluated at a concrete corrupt file
and a concrete parsed state. -/
theorem loadFromFile_tolerant_witness :
    InMemoryStore.loadFromFile .missing freshStore = freshStore ∧
    InMemoryStore.loadFromFile .unreadable freshStore = freshStore ∧
    InMemoryStore.loadFromFile (.corrupt "not json at all") freshStore = freshStore ∧
    (InMemoryStore.load serializedSample).chats = .obj [] ∧
    (InMemoryStore.load serializedSample).poll_message = pollDefault ∧
    (InMemoryStore.load serializedSample).contacts
      = .obj [("17@s.whatsapp.net", .obj [("id", .str "17@s.whatsapp.net")])] ∧
    (InMemoryStore.load serializedSample).lidMapping
      = .obj [("17@s.whatsapp.net", .str "9@lid")] := by
  obtain ⟨h1, h2, h3, _, _, hch, _, _, _, _, _, _, _, hpm, _, hc, _, _, hl⟩ :=
    loadFromFile_tolerant "not json at all" serializedSample
  exact ⟨h1, h2, h3, hch rfl, hpm rfl, hc _ rfl rfl, hl _ rfl rfl⟩

/-- First-match association lookup on a JS object's field list. -/
def lookupField (fs : List (String × JsVal)) (k : String) : Option JsVal :=
  (fs.find? (fun p => p.1 == k)).map Prod.snd

/-- The field list of a JS value: object fields, or nothing. -/
def objFields : JsVal → List (String × JsVal)
  | .obj fs => fs
  | _ => []

/-- Property read v[k] on a JS value. -/
def objGet (v : JsVal) (k : String) : Option JsVal :=
  match v with
  | .obj fs => lookupField fs k
  | _ => none

/-- JS object spread of two field lists: the first list's keys keep their
positions with values overridden by the second list, then the second
list's new keys follow. -/
def spreadFields (as bs : List (String × JsVal)) : List (String × JsVal) :=
  as.map (fun p => (p.1, match lookupField bs p.1 with | some v => v | none => p.2))
    ++ bs.filter (fun q => (lookupField as q.1).isNone)

/-- The JS object expression spreading a over b (b's fields win). -/
def objSpread (a b : JsVal) : JsVal := .obj (spreadFields (objFields a) (objFields b))

/-- Property assignment obj[k] = w on a field list: replace in place or
append. -/
def setField : List (String × JsVal) → String → JsVal → List (String × JsVal)
  | [], k, w => [(k, w)]
  | p :: ps, k, w => if p.1 == k then (k, w) :: ps else p :: setField ps k w

/-- Property assignment on a JS value; the store's collections are always
objects, other values are left unchanged. -/
def objSetField (v : JsVal) (k : String) (w : JsVal) : JsVal :=
  match v with
  | .obj fs => .obj (setField fs k w)
  | _ => v

/-- The property key JS derives from a contact id value. Composite values
never occur as ids in this codebase. -/
def jsKeyStr : JsVal → String
  | .str s => s
  | .num n => toString n
  | .bool b => toString b
  | .null => "null"
  | .arr _ => ""
  | .obj _ => ""

/-- InMemoryStore.upsertContact of src/core/store.js: return unchanged on
a falsy id, otherwise assign the spread of the existing entry (or nothing)
with the given record. -/
def InMemoryStore.upsertContact (c : JsVal) (s : InMemoryStore) : InMemoryStore :=
  match objGet c "id" with
  | none => s
  | some idv =>
    if jsTruthy idv then
      let key := jsKeyStr idv
      let old := match objGet s.contacts key with | some o => o | none => .obj []
      { s with contacts := objSetField s.contacts key (objSpread old c) }
    else s

/-- InMemoryStore.upsertChat of src/core/store.js: identical merge-on-key
on the chats collection. -/
def InMemoryStore.upsertChat (c : JsVal) (s : InMemoryStore) : InMemoryStore :=
  match objGet c "id" with
  | none => s
  | some idv =>
    if jsTruthy idv then
      let key := jsKeyStr idv
      let old := match objGet s.chats key with | some o => o | none => .obj []
      { s with chats := objSetField s.chats key (objSpread old c) }
    else s

lemma lookupField_append (xs ys : List (String × JsVal)) (k : String) :
    lookupField (xs ++ ys) k =
      match lookupField xs k with
      | some v => some v
      | none => lookupField ys k := by
  induction xs with
  | nil => simp [lookupField]
  | cons p ps ih =>
    by_cases hk : p.1 == k
    · simp [lookupField, List.find?, hk]
    · simp only [lookupField, List.cons_append, List.find?] at ih ⊢
      rw [Bool.not_eq_true] at hk
      rw [hk]
      exact ih

lemma lookupField_cons (p : String × JsVal) (l : List (String × JsVal)) (k : String) :
    lookupField (p :: l) k = if p.1 == k then some p.2 else lookupField l k := by
  by_cases h : (p.1 == k) = true <;> simp [lookupField, List.find?, h]

lemma lookupField_map_override (as : List (String × JsVal)) (g : String → JsVal → JsVal)
    (k : String) :
    lookupField (as.map (fun p => (p.1, g p.1 p.2))) k = (lookupField as k).map (g k) := by
  induction as with
  | nil => simp [lookupField]
  | cons p ps ih =>
    rw [List.map_cons, lookupField_cons, lookupField_cons]
    by_cases hk : (p.1 == k) = true
    · have hk1 : p.1 = k := eq_of_beq hk
      simp only [hk, if_pos]
      rw [hk1]
      rfl
    · rw [Bool.not_eq_true] at hk
      simp only [hk, Bool.false_eq_true, if_neg, if_false]
      exact ih

lemma lookupField_filter_key (bs : List (String × JsVal)) (f : String → Bool) (k : String) :
    lookupField (bs.filter (fun q => f q.1)) k =
      if f k then lookupField bs k else none := by
  induction bs with
  | nil => simp [lookupField]
  | cons p ps ih =>
    by_cases hk : (p.1 == k) = true
    · have hk1 : p.1 = k := eq_of_beq hk
      subst hk1
      cases hf : f p.1 with
      | true => simp [List.filter_cons, hf, lookupField_cons, hk]
      | false => simp [List.filter_cons, hf, lookupField_cons, hk, ih]
    · rw [Bool.not_eq_true] at hk
      cases hf : f p.1 with
      | true => simp [List.filter_cons, hf, lookupField_cons, hk, ih]
      | false => simp [List.filter_cons, hf, lookupField_cons, hk, ih]

lemma lookupField_spreadFields (as bs : List (String × JsVal)) (k : String) :
    lookupField (spreadFields as bs) k =
      match lookupField bs k with
      | some v => some v
      | none => lookupField as k := by
  unfold spreadFields
  rw [lookupField_append]
  rw [lookupField_map_override as (fun k1 v => match lookupField bs k1 with
    | some w => w | none => v) k]
  rw [lookupField_filter_key bs (fun k1 => (lookupField as k1).isNone) k]
  cases has : lookupField as k with
  | some v =>
    cases hbs : lookupField bs k with
    | some w => simp [has, hbs]
    | none => simp [has, hbs]
  | none =>
    cases hbs : lookupField bs k with
    | some w => simp [has, hbs]
    | none => simp [has, hbs]

lemma lookupField_setField (fs : List (String × JsVal)) (k : String) (w : JsVal) (k1 : String) :
    lookupField (setField fs k w) k1 =
      if k1 = k then some w else lookupField fs k1 := by
  induction fs with
  | nil =>
    rw [setField, lookupField_cons]
    by_cases h : k1 = k
    · subst h
      rw [if_pos rfl, if_pos (by exact beq_self_eq_true k1)]
    · rw [if_neg h, if_neg (by rw [beq_eq_false_iff_ne.mpr (Ne.symm h)]; exact Bool.false_ne_true)]
  | cons p ps ih =>
    rw [setField]
    by_cases hk : (p.1 == k) = true
    · have hk1 : p.1 = k := eq_of_beq hk
      rw [if_pos hk, lookupField_cons, lookupField_cons, hk1]
      by_cases he : k1 = k
      · subst he
        rw [if_pos rfl, if_pos (by exact beq_self_eq_true k1)]
      · rw [if_neg he]
        have h2 : (k == k1) = false := beq_eq_false_iff_ne.mpr (Ne.symm he)
        rw [h2]
        simp
    · rw [Bool.not_eq_true] at hk
      rw [if_neg (by rw [hk]; exact Bool.false_ne_true), lookupField_cons, lookupField_cons]
      cases hpk : (p.1 == k1) with
      | true =>
        have h1 : p.1 = k1 := eq_of_beq hpk
        have h2 : ¬(k1 = k) := by
          intro he
          rw [he] at h1
          rw [h1] at hk
          rw [beq_self_eq_true] at hk
          exact Bool.noConfusion hk
        rw [if_neg h2]
        simp [hpk]
      | false =>
        simp only [Bool.false_eq_true, if_neg, if_false]
        exact ih

lemma objGet_eq_lookupField_objFields (v : JsVal) (k : String) :
    lookupField (objFields v) k = objGet v k := by
  cases v <;> rfl

lemma objGet_objSpread (a b : JsVal) (k : String) :
    objGet (objSpread a b) k =
      match objGet b k with
      | some v => some v
      | none => objGet a k := by
  show lookupField (spreadFields (objFields a) (objFields b)) k = _
  rw [lookupField_spreadFields]
  rw [objGet_eq_lookupField_objFields, objGet_eq_lookupField_objFields]

lemma jsTruthy_str_of_ne {i : String} (h : i ≠ "") : jsTruthy (.str i) = true := by
  simp [jsTruthy, bne_iff_ne, h]

/-- C9: upsertContact and upsertChat merge on the id key. With a non-empty
id, an unknown id creates an entry that agrees field-by-field with the
given record, a known id is shallow-merged with the given record's fields
winning, other keys are untouched; a record with a missing or empty id
leaves the store completely unchanged, and no further validation is
performed. -/
theorem upsert_merge_on_key (s : InMemoryStore) (c : JsVal) (i : String)
    (fs gs : List (String × JsVal))
    (hsc : s.contacts = .obj fs) (hsg : s.chats = .obj gs)
    (hid : objGet c "id" = some (.str i)) (hne : i ≠ "") :
    (objGet s.contacts i = none →
      objGet (InMemoryStore.upsertContact c s).contacts i = some (objSpread (.obj []) c) ∧
      ∀ k, objGet (objSpread (.obj []) c) k = objGet c k) ∧
    (∀ old, objGet s.contacts i = some old →
      objGet (InMemoryStore.upsertContact c s).contacts i = some (objSpread old c) ∧
      ∀ k, objGet (objSpread old c) k =
        match objGet c k with
        | some v => some v
        | none => objGet old k) ∧
    (∀ k, k ≠ i →
      objGet (InMemoryStore.upsertContact c s).contacts k = objGet s.contacts k) ∧
    (objGet s.chats i = none →
      objGet (InMemoryStore.upsertChat c s).chats i = some (objSpread (.obj []) c) ∧
      ∀ k, objGet (objSpread (.obj []) c) k = objGet c k) ∧
    (∀ old, objGet s.chats i = some old →
      objGet (InMemoryStore.upsertChat c s).chats i = some (objSpread old c) ∧
      ∀ k, objGet (objSpread old c) k =
        match objGet c k with
        | some v => some v
        | none => objGet old k) ∧
    (∀ k, k ≠ i →
      objGet (InMemoryStore.upsertChat c s).chats k = objGet s.chats k) ∧
    (∀ c2 : JsVal, objGet c2 "id" = none ∨ objGet c2 "id" = some (.str "") →
      InMemoryStore.upsertContact c2 s = s ∧ InMemoryStore.upsertChat c2 s = s) := by
  have ht : jsTruthy (.str i) = true := jsTruthy_str_of_ne hne
  have hredc : (InMemoryStore.upsertContact c s).contacts =
      objSetField s.contacts i (objSpread
        (match objGet s.contacts i with | some o => o | none => .obj []) c) := by
    unfold InMemoryStore.upsertContact
    rw [hid]
    simp only [ht, if_pos, jsKeyStr]
  have hredg : (InMemoryStore.upsertChat c s).chats =
      objSetField s.chats i (objSpread
        (match objGet s.chats i with | some o => o | none => .obj []) c) := by
    unfold InMemoryStore.upsertChat
    rw [hid]
    simp only [ht, if_pos, jsKeyStr]
  refine ⟨?_, ?_, ?_, ?_, ?_, ?_, ?_⟩
  · intro hnone
    constructor
    · rw [hredc, hnone, hsc]
      show lookupField (setField fs i _) i = _
      rw [lookupField_setField, if_pos rfl]
    · intro k
      rw [objGet_objSpread]
      cases objGet c k <;> simp [objGet, lookupField]
  · intro old hold
    constructor
    · rw [hredc, hold, hsc]
      show lookupField (setField fs i _) i = _
      rw [lookupField_setField, if_pos rfl]
    · intro k
      rw [objGet_objSpread]
  · intro k hk
    rw [hredc, hsc]
    show lookupField (setField fs i _) k = _
    rw [lookupField_setField, if_neg hk]
    rfl
  · intro hnone
    constructor
    · rw [hredg, hnone, hsg]
      show lookupField (setField gs i _) i = _
      rw [lookupField_setField, if_pos rfl]
    · intro k
      rw [objGet_objSpread]
      cases objGet c k <;> simp [objGet, lookupField]
  · intro old hold
    constructor
    · rw [hredg, hold, hsg]
      show lookupField (setField gs i _) i = _
      rw [lookupField_setField, if_pos rfl]
    · intro k
      rw [objGet_objSpread]
  · intro k hk
    rw [hredg, hsg]
    show lookupField (setField gs i _) k = _
    rw [lookupField_setField, if_neg hk]
    rfl
  · rintro c2 (hmiss | hempty)
    · constructor
      · unfold InMemoryStore.upsertContact
        rw [hmiss]
      · unfold InMemoryStore.upsertChat
        rw [hmiss]
    · have hfalse : jsTruthy (JsVal.str "") = false := by decide
      constructor
      · unfold InMemoryStore.upsertContact
        rw [hempty]
        simp [hfalse]
      · unfold InMemoryStore.upsertChat
        rw [hempty]
        simp [hfalse]

/-- A concrete existing contact entry for the C9 witness. -/
def oldSample : JsVal :=
  .obj [("id", .str "7@s.whatsapp.net"), ("name", .str "Ann"), ("note", .str "old")]

/-- A concrete incoming contact record for the C9 witness. -/
def contactSample : JsVal :=
  .obj [("id", .str "7@s.whatsapp.net"), ("name", .str "Bea"), ("phone", .str "7")]

/-- A concrete store with one contact and no chats for the C9 witness. -/
def storeSample : InMemoryStore :=
  { freshStore with contacts := .obj [("7@s.whatsapp.net", oldSample)] }

/-- C9 witness: the merge-on-key theorem evaluated at a concrete store and
record, covering the known-id merge, the unknown-id creation, an untouched
key, and the missing-id no-op. -/
theorem upsert_merge_on_key_witness :
    objGet (InMemoryStore.upsertContact contactSample storeSample).contacts
      "7@s.whatsapp.net" = some (objSpread oldSample contactSample) ∧
    objGet (InMemoryStore.upsertChat contactSample storeSample).chats
      "7@s.whatsapp.net" = some (objSpread (.obj []) contactSample) ∧
    objGet (objSpread (.obj []) contactSample) "name" = objGet contactSample "name" ∧
    objGet (InMemoryStore.upsertContact contactSample storeSample).contacts
      "9@s.whatsapp.net" = objGet storeSample.contacts "9@s.whatsapp.net" ∧
    InMemoryStore.upsertContact (.obj []) storeSample = storeSample := by
  obtain ⟨_, hknown, hother, hunknown, _, _, hnoop⟩ :=
    upsert_merge_on_key storeSample contactSample "7@s.whatsapp.net"
      [("7@s.whatsapp.net", oldSample)] [] rfl rfl rfl (by decide)
  refine ⟨(hknown oldSample rfl).1, (hunknown rfl).1, (hunknown rfl).2 "name",
    hother "9@s.whatsapp.net" (by decide), (hnoop (.obj []) (Or.inl rfl)).1⟩

/-- The message cache refined with explicit object identity: messages maps
a (remoteJid, message id) pair to the heap address of the cached object
graph, and the heap maps addresses to the structural value of the graph.
JSON.parse of JSON.stringify copies a whole object graph, so one address
stands for one graph. -/
structure MsgHeap where
  messages : List ((String × String) × Nat)
  heap : List (Nat × JsVal)
  nextAddr : Nat

/-- The message cache of a freshly constructed store. -/
def emptyMsgHeap : MsgHeap := { messages := [], heap := [], nextAddr := 0 }

/-- Lookup of the cache address stored for a (remoteJid, id) pair. -/
def assocFind (l : List ((String × String) × Nat)) (k : String × String) : Option Nat :=
  (l.find? (fun p => p.1.1 == k.1 && p.1.2 == k.2)).map Prod.snd

/-- Assignment of a cache address for a (remoteJid, id) pair: replace in
place or append. -/
def msgSet : List ((String × String) × Nat) → (String × String) → Nat →
    List ((String × String) × Nat)
  | [], k, a => [(k, a)]
  | p :: ps, k, a =>
    if p.1.1 == k.1 && p.1.2 == k.2 then (k, a) :: ps else p :: msgSet ps k a

/-- Reading the object graph at a heap address. -/
def heapGet (h : List (Nat × JsVal)) (a : Nat) : Option JsVal :=
  (h.find? (fun p => p.1 == a)).map Prod.snd

/-- Overwriting the object graph at a heap address: a caller mutating the
object it was handed. -/
def heapSet : List (Nat × JsVal) → Nat → JsVal → List (Nat × JsVal)
  | [], a, w => [(a, w)]
  | p :: ps, a, w => if p.1 == a then (a, w) :: ps else p :: heapSet ps a w

/-- A caller-side mutation of the object at address a. -/
def mutateAt (s : MsgHeap) (a : Nat) (v : JsVal) : MsgHeap :=
  { s with heap := heapSet s.heap a v }

/-- Extraction of message.key.remoteJid and message.key.id with the JS
falsiness guard of upsertMessage; keys are strings in this codebase. -/
def msgKeyOf (m : JsVal) : Option (String × String) :=
  match objGet m "key" with
  | none => none
  | some k =>
    match objGet k "remoteJid", objGet k "id" with
    | some (.str jid), some (.str mid) =>
      if jid = "" ∨ mid = "" then none else some (jid, mid)
    | _, _ => none

/-- InMemoryStore.upsertMessage of src/core/store.js: guard on a missing
key, then store JSON.parse of JSON.stringify of the message, that is a
fresh object graph with the same structural value. -/
def InMemoryStore.upsertMessage (m : JsVal) (s : MsgHeap) : MsgHeap :=
  match msgKeyOf m with
  | none => s
  | some k =>
    { messages := msgSet s.messages k s.nextAddr
    , heap := (s.nextAddr, m) :: s.heap
    , nextAddr := s.nextAddr + 1 }

/-- InMemoryStore.loadMessage of src/core/store.js: undefined on a falsy
argument or an absent entry; a found message is returned as JSON.parse of
JSON.stringify of the cached object, that is a fresh address holding the
same structural value. -/
def InMemoryStore.loadMessage (s : MsgHeap) (jid mid : String) : Option Nat × MsgHeap :=
  if jid = "" ∨ mid = "" then (none, s) else
  match assocFind s.messages (jid, mid) with
  | none => (none, s)
  | some a =>
    match heapGet s.heap a with
    | none => (none, s)
    | some v =>
      (some s.nextAddr, { s with heap := (s.nextAddr, v) :: s.heap, nextAddr := s.nextAddr + 1 })

/-- Every cache address is below the allocation counter. -/
def addrsBounded (s : MsgHeap) : Bool :=
  s.messages.all (fun p => p.2 < s.nextAddr)

lemma heapGet_cons (n : Nat) (v : JsVal) (h : List (Nat × JsVal)) (a : Nat) :
    heapGet ((n, v) :: h) a = if n = a then some v else heapGet h a := by
  by_cases he : n = a
  · subst he
    simp [heapGet, List.find?]
  · have hb : (n == a) = false := beq_eq_false_iff_ne.mpr he
    simp [heapGet, List.find?, hb, he]

lemma heapGet_heapSet (h : List (Nat × JsVal)) (a : Nat) (w : JsVal) (a1 : Nat) :
    heapGet (heapSet h a w) a1 = if a = a1 then some w else heapGet h a1 := by
  induction h with
  | nil =>
    rw [heapSet, heapGet_cons]
  | cons p ps ih =>
    rw [heapSet]
    by_cases hp : (p.1 == a) = true
    · have hp1 : p.1 = a := eq_of_beq hp
      rw [if_pos hp, heapGet_cons, heapGet_cons, hp1]
      by_cases he : a = a1 <;> simp [he]
    · rw [Bool.not_eq_true] at hp
      have hp1 : p.1 ≠ a := by
        intro he
        rw [he] at hp
        rw [beq_self_eq_true] at hp
        exact Bool.noConfusion hp
      rw [if_neg (by rw [hp]; exact Bool.false_ne_true), heapGet_cons, heapGet_cons, ih]
      by_cases he : p.1 = a1
      · have ha : a ≠ a1 := by
          intro h2
          rw [h2] at hp1
          exact hp1 he
        rw [if_pos he, if_pos he, if_neg ha]
      · rw [if_neg he, if_neg he]

lemma addr_lt_of_bounded {s : MsgHeap} {k : String × String} {a : Nat}
    (hwf : addrsBounded s = true) (hfind : assocFind s.messages k = some a) :
    a < s.nextAddr := by
  unfold assocFind at hfind
  cases hf : s.messages.find? (fun p => p.1.1 == k.1 && p.1.2 == k.2) with
  | none => rw [hf] at hfind; exact Option.noConfusion hfind
  | some p =>
    rw [hf] at hfind
    have hmem : p ∈ s.messages := List.mem_of_find?_eq_some hf
    have hall := List.all_eq_true.mp hwf p hmem
    have ha : p.2 = a := by
      simpa using hfind
    rw [← ha]
    exact of_decide_eq_true hall

/-- C8: loadMessage returns a defensive copy. A cached message at address
a with value v is returned at a fresh address holding the same structural
value; any mutation through the returned address leaves the cached object
and the result of every subsequent loadMessage unchanged; an absent entry
or a falsy argument yields undefined. -/
theorem loadMessage_defensive_copy (s : MsgHeap) (jid mid : String) (a : Nat) (v : JsVal)
    (hwf : addrsBounded s = true)
    (hjid : jid ≠ "") (hmid : mid ≠ "")
    (hfind : assocFind s.messages (jid, mid) = some a)
    (hval : heapGet s.heap a = some v) :
    (InMemoryStore.loadMessage s jid mid).1 = some s.nextAddr ∧
    s.nextAddr ≠ a ∧
    heapGet (InMemoryStore.loadMessage s jid mid).2.heap s.nextAddr = some v ∧
    (∀ w,
      heapGet (mutateAt (InMemoryStore.loadMessage s jid mid).2 s.nextAddr w).heap a = some v ∧
      (InMemoryStore.loadMessage
        (mutateAt (InMemoryStore.loadMessage s jid mid).2 s.nextAddr w) jid mid).1
          = some (s.nextAddr + 1) ∧
      heapGet (InMemoryStore.loadMessage
        (mutateAt (InMemoryStore.loadMessage s jid mid).2 s.nextAddr w) jid mid).2.heap
          (s.nextAddr + 1) = some v) ∧
    (∀ jid2 mid2, assocFind s.messages (jid2, mid2) = none →
      (InMemoryStore.loadMessage s jid2 mid2).1 = none) ∧
    (∀ mid2, (InMemoryStore.loadMessage s "" mid2).1 = none) ∧
    (∀ jid2, (InMemoryStore.loadMessage s jid2 "").1 = none) := by
  have hlt : a < s.nextAddr := addr_lt_of_bounded hwf hfind
  have hne : s.nextAddr ≠ a := fun he => absurd (he ▸ hlt) (lt_irrefl a)
  have hargs : ¬(jid = "" ∨ mid = "") := by rintro (h | h) <;> [exact hjid h; exact hmid h]
  have hload : InMemoryStore.loadMessage s jid mid =
      (some s.nextAddr,
        { s with heap := (s.nextAddr, v) :: s.heap, nextAddr := s.nextAddr + 1 }) := by
    unfold InMemoryStore.loadMessage
    rw [if_neg hargs]
    simp only [hfind, hval]
  refine ⟨by rw [hload], hne, ?_, ?_, ?_, ?_, ?_⟩
  · rw [hload, heapGet_cons, if_pos rfl]
  · intro w
    have hs2 : mutateAt (InMemoryStore.loadMessage s jid mid).2 s.nextAddr w =
        { messages := s.messages, heap := (s.nextAddr, w) :: s.heap
        , nextAddr := s.nextAddr + 1 } := by
      rw [hload]
      show ({ messages := s.messages
            , heap := heapSet ((s.nextAddr, v) :: s.heap) s.nextAddr w
            , nextAddr := s.nextAddr + 1 } : MsgHeap) = _
      rw [heapSet, if_pos (beq_self_eq_true s.nextAddr)]
    have hget : heapGet ((s.nextAddr, w) :: s.heap) a = some v := by
      rw [heapGet_cons, if_neg hne, hval]
    have hload2 : InMemoryStore.loadMessage
        ({ messages := s.messages, heap := (s.nextAddr, w) :: s.heap
         , nextAddr := s.nextAddr + 1 } : MsgHeap) jid mid =
        (some (s.nextAddr + 1),
          { messages := s.messages
          , heap := (s.nextAddr + 1, v) :: (s.nextAddr, w) :: s.heap
          , nextAddr := s.nextAddr + 1 + 1 }) := by
      unfold InMemoryStore.loadMessage
      rw [if_neg hargs]
      simp only [hfind, hget]
    refine ⟨by rw [hs2]; exact hget, by rw [hs2, hload2], ?_⟩
    rw [hs2, hload2]
    show heapGet ((s.nextAddr + 1, v) :: (s.nextAddr, w) :: s.heap) (s.nextAddr + 1) = some v
    rw [heapGet_cons, if_pos rfl]
  · intro jid2 mid2 hnone
    unfold InMemoryStore.loadMessage
    by_cases h2 : jid2 = "" ∨ mid2 = ""
    · rw [if_pos h2]
    · rw [if_neg h2, hnone]
  · intro mid2
    unfold InMemoryStore.loadMessage
    rw [if_pos (Or.inl rfl)]
  · intro jid2
    unfold InMemoryStore.loadMessage
    rw [if_pos (Or.inr rfl)]

/-- A concrete cached message for the C8 witness. -/
def msgSample : JsVal :=
  .obj [("key", .obj [("remoteJid", .str "7@s.whatsapp.net"), ("id", .str "MSG1")])
       , ("body", .str "hi")]

/-- The concrete cache holding msgSample, built by upsertMessage. -/
def msgHeapSample : MsgHeap := InMemoryStore.upsertMessage msgSample emptyMsgHeap

/-- C8 witness: the defensive-copy theorem evaluated on a store holding
one concrete message, with a concrete mutation overwriting the copy. -/
theorem loadMessage_defensive_copy_witness :
    (InMemoryStore.loadMessage msgHeapSample "7@s.whatsapp.net" "MSG1").1 = some 1 ∧
    heapGet (InMemoryStore.loadMessage msgHeapSample "7@s.whatsapp.net" "MSG1").2.heap 1
      = some msgSample ∧
    heapGet (mutateAt
      (InMemoryStore.loadMessage msgHeapSample "7@s.whatsapp.net" "MSG1").2 1 .null).heap 0
      = some msgSample ∧
    (InMemoryStore.loadMessage
      (mutateAt (InMemoryStore.loadMessage msgHeapSample "7@s.whatsapp.net" "MSG1").2 1 .null)
      "7@s.whatsapp.net" "MSG1").1 = some 2 ∧
    (InMemoryStore.loadMessage msgHeapSample "7@s.whatsapp.net" "ABSENT").1 = none ∧
    (InMemoryStore.loadMessage msgHeapSample "" "MSG1").1 = none := by
  obtain ⟨h1, _, h2, h3, h4, h5, _⟩ :=
    loadMessage_defensive_copy msgHeapSample "7@s.whatsapp.net" "MSG1" 0 msgSample
      (by decide) (by decide) (by decide) (by decide) rfl
  exact ⟨h1, h2, (h3 .null).1, (h3 .null).2.1, h4 "7@s.whatsapp.net" "ABSENT" (by decide),
    h5 "MSG1"⟩

/-- Outcome Telegram reports for one send call: success with a message
id, the thread-not-found description, or any other error. -/
inductive SendRes where
  | ok (mid : Nat)
  | threadNotFound
  | err
deriving DecidableEq

/-- Environment of a relay run: the outcome of each successive Telegram
send, the outcome of each successive createForumTopic (none when the call
throws), and the profile picture fetched after each successful creation. -/
structure RelayEnv where
  sends : List SendRes
  creations : List (Option Nat)
  pics : List (Option String)

/-- The bridge's mapping state: the in-memory chatMappings and
profilePicCache maps, and the chat documents of the durable collection
keyed by whatsappJid. -/
structure Bridge where
  chatMappings : List (String × Nat)
  profilePicCache : List (String × String)
  collection : List (String × Nat)

/-- The bridge state before any mapping exists. -/
def emptyBridge : Bridge := { chatMappings := [], profilePicCache := [], collection := [] }

/-- JS Map.set: replace the entry of an existing key in place, else
append. -/
def mapSet {α : Type} : List (String × α) → String → α → List (String × α)
  | [], k, v => [(k, v)]
  | p :: ps, k, v => if p.1 == k then (k, v) :: ps else p :: mapSet ps k v

/-- JS Map.delete and the durable deleteOne keyed by whatsappJid. -/
def mapDelete {α : Type} (l : List (String × α)) (k : String) : List (String × α) :=
  l.filter (fun p => !(p.1 == k))

/-- JS Map.get. -/
def mapLookup {α : Type} (l : List (String × α)) (k : String) : Option α :=
  (l.find? (fun p => p.1 == k)).map Prod.snd

/-- TelegramBridge.findWhatsAppJidByTopic: the first jid mapped to the
given topic id. -/
def findJidByTopic (l : List (String × Nat)) (t : Nat) : Option String :=
  (l.find? (fun p => p.2 == t)).map Prod.fst

/-- TelegramBridge.saveChatMapping: upsert the durable chat document, set
the in-memory mapping, and cache the profile picture when present. The
jid reaching this point is already the normalized PN JID. -/
def saveChatMapping (b : Bridge) (jid : String) (tid : Nat) (pic : Option String) : Bridge :=
  { chatMappings := mapSet b.chatMappings jid tid
  , profilePicCache :=
      match pic with
      | some u => mapSet b.profilePicCache jid u
      | none => b.profilePicCache
  , collection := mapSet b.collection jid tid }

/-- The purge performed by the recovery paths: chatMappings.delete,
profilePicCache.delete, and the durable deleteOne for the jid. -/
def purgeMapping (b : Bridge) (jid : String) : Bridge :=
  { chatMappings := mapDelete b.chatMappings jid
  , profilePicCache := mapDelete b.profilePicCache jid
  , collection := mapDelete b.collection jid }

/-- Trace actions of a relay run. -/
inductive Act where
  | sendAttempt (topic : Nat)
  | purge (jid : String)
  | createTopic (jid : String) (tid : Nat)
deriving DecidableEq

/-- TelegramBridge.getOrCreateTopic on the sequential path of one relay
(the creatingTopics dedup of interleaved callers is modelled separately):
a cached mapping is returned without any network call; otherwise one
createForumTopic outcome is consumed, and on success the profile picture
is fetched and the mapping saved. The model takes the configured chat id
for granted and the welcome-message feature disabled. -/
def getOrCreateTopicSeq (b : Bridge) (env : RelayEnv) (jid : String) :
    Option Nat × Bridge × RelayEnv × List Act :=
  match mapLookup b.chatMappings jid with
  | some t => (some t, b, env, [])
  | none =>
    match env.creations with
    | [] => (none, b, env, [])
    | none :: rest => (none, b, { env with creations := rest }, [])
    | some tid :: rest =>
      let pic := env.pics.headD none
      let env2 := { env with creations := rest, pics := env.pics.tail }
      (some tid, saveChatMapping b jid tid pic, env2, [Act.createTopic jid tid])

/-- TelegramBridge.sendSimpleMessage: one send attempt; on the
thread-not-found description only, find the jid by topic id, purge the
stale mapping, recreate the topic, and retry the same payload exactly
once, without examining the retry's own error. -/
def sendSimpleMessage (b : Bridge) (env : RelayEnv) (topicId : Nat) :
    Option Nat × Bridge × RelayEnv × List Act :=
  match env.sends with
  | [] => (none, b, env, [Act.sendAttempt topicId])
  | r :: rest =>
    let env1 := { env with sends := rest }
    match r with
    | .ok mid => (some mid, b, env1, [Act.sendAttempt topicId])
    | .err => (none, b, env1, [Act.sendAttempt topicId])
    | .threadNotFound =>
      match findJidByTopic b.chatMappings topicId with
      | none => (none, b, env1, [Act.sendAttempt topicId])
      | some jid =>
        let b1 := purgeMapping b jid
        match getOrCreateTopicSeq b1 env1 jid with
        | (none, b2, env2, acts) =>
          (none, b2, env2, Act.sendAttempt topicId :: Act.purge jid :: acts)
        | (some newTid, b2, env2, acts) =>
          match env2.sends with
          | [] => (none, b2, env2,
              Act.sendAttempt topicId :: Act.purge jid :: (acts ++ [Act.sendAttempt newTid]))
          | r2 :: rest2 =>
            let env3 := { env2 with sends := rest2 }
            match r2 with
            | .ok mid => (some mid, b2, env3,
                Act.sendAttempt topicId :: Act.purge jid :: (acts ++ [Act.sendAttempt newTid]))
            | _ => (none, b2, env3,
                Act.sendAttempt topicId :: Act.purge jid :: (acts ++ [Act.sendAttempt newTid]))

/-- The sendMedia closure of TelegramBridge.handleWhatsAppMedia: one
Telegram send per invocation; on the thread-not-found description the
mapping of the sender (already the PN JID of the message key) is purged,
the topic recreated, and sendMedia called again on the new topic id -
a recursive retry, not a single one. -/
def sendMedia (sender : String) :
    List SendRes → List (Option Nat) → List (Option String) → Bridge → Nat →
      Bridge × List Act
  | [], _, _, b, t => (b, [Act.sendAttempt t])
  | r :: rest, creations, pics, b, t =>
    match r with
    | .ok _ => (b, [Act.sendAttempt t])
    | .err => (b, [Act.sendAttempt t])
    | .threadNotFound =>
      let b1 := purgeMapping b sender
      match getOrCreateTopicSeq b1 { sends := rest, creations := creations, pics := pics }
          sender with
      | (none, b2, _, acts) => (b2, Act.sendAttempt t :: Act.purge sender :: acts)
      | (some newTid, b2, env2, acts) =>
        let r2 := sendMedia sender rest env2.creations env2.pics b2 newTid
        (r2.1, Act.sendAttempt t :: Act.purge sender :: (acts ++ r2.2))

/-- Number of createForumTopic calls recorded in a trace. -/
def countCreates (tr : List Act) : Nat :=
  tr.countP (fun a => match a with | .createTopic _ _ => true | _ => false)

/-- Number of Telegram send attempts recorded in a trace. -/
def countSends (tr : List Act) : Nat :=
  tr.countP (fun a => match a with | .sendAttempt _ => true | _ => false)

/-- Scanning check that every topic creation in a trace is preceded by a
purge of the same conversation. -/
def purgeBeforeCreate : List Act → List String → Bool
  | [], _ => true
  | .sendAttempt _ :: rest, seen => purgeBeforeCreate rest seen
  | .purge j :: rest, seen => purgeBeforeCreate rest (j :: seen)
  | .createTopic j _ :: rest, seen =>
    if j ∈ seen then purgeBeforeCreate rest seen else false

/-- At most one chatMappings entry per key, as a per-key count. -/
def keyCount {α : Type} (l : List (String × α)) (jid : String) : Nat :=
  l.countP (fun p => p.1 == jid)

/-- Distinct keys in an association list. -/
def NodupKeys {α : Type} (l : List (String × α)) : Prop :=
  l.Pairwise (fun p q => p.1 ≠ q.1)

/-- The mapping-state operations a running bridge performs. -/
inductive BridgeOp where
  | save (jid : String) (tid : Nat) (pic : Option String)
  | purgeO (jid : String)
  | relaySimple (env : RelayEnv) (topicId : Nat)
  | relayMedia (env : RelayEnv) (sender : String) (topicId : Nat)
  | create (env : RelayEnv) (jid : String)

/-- One bridge operation applied to the mapping state. -/
def applyOp (b : Bridge) : BridgeOp → Bridge
  | .save jid tid pic => saveChatMapping b jid tid pic
  | .purgeO jid => purgeMapping b jid
  | .relaySimple env t => (sendSimpleMessage b env t).2.1
  | .relayMedia env sender t => (sendMedia sender env.sends env.creations env.pics b t).1
  | .create env jid => (getOrCreateTopicSeq b env jid).2.1

/-- The bridge state reached by a sequence of operations from startup. -/
def runOps (ops : List BridgeOp) : Bridge := ops.foldl applyOp emptyBridge

lemma mapLookup_mapDelete_self {α : Type} (l : List (String × α)) (k : String) :
    mapLookup (mapDelete l k) k = none := by
  induction l with
  | nil => rfl
  | cons p ps ih =>
    unfold mapDelete at ih ⊢
    rw [List.filter_cons]
    cases hp : p.1 == k with
    | true =>
      simp only [hp, Bool.not_true, Bool.false_eq_true, if_neg, if_false]
      exact ih
    | false =>
      simp only [hp, Bool.not_false, if_pos]
      unfold mapLookup at ih ⊢
      rw [List.find?_cons, hp]
      exact ih

lemma mapLookup_mapSet {α : Type} (l : List (String × α)) (k : String) (v : α) (k1 : String) :
    mapLookup (mapSet l k v) k1 = if k1 = k then some v else mapLookup l k1 := by
  induction l with
  | nil =>
    unfold mapSet mapLookup
    rw [List.find?_cons]
    by_cases h : k1 = k
    · subst h
      rw [if_pos rfl]
      simp
    · rw [if_neg h]
      have hb : (k == k1) = false := beq_eq_false_iff_ne.mpr (Ne.symm h)
      rw [hb]
  | cons p ps ih =>
    unfold mapSet
    by_cases hp : (p.1 == k) = true
    · have hp1 : p.1 = k := eq_of_beq hp
      rw [if_pos hp]
      unfold mapLookup
      rw [List.find?_cons, List.find?_cons]
      by_cases h : k1 = k
      · subst h
        rw [if_pos rfl, beq_self_eq_true k1]
        rfl
      · have hb : (k == k1) = false := beq_eq_false_iff_ne.mpr (Ne.symm h)
        rw [if_neg h, hb, hp1, hb]
    · rw [Bool.not_eq_true] at hp
      rw [if_neg (by rw [hp]; exact Bool.false_ne_true)]
      unfold mapLookup at ih ⊢
      rw [List.find?_cons, List.find?_cons]
      cases hpk : p.1 == k1 with
      | true =>
        have h1 : p.1 = k1 := eq_of_beq hpk
        have h2 : ¬(k1 = k) := by
          intro he
          rw [he] at h1
          rw [h1, beq_self_eq_true] at hp
          exact Bool.noConfusion hp
        rw [if_neg h2]
      | false =>
        exact ih

lemma mem_mapSet {α : Type} {l : List (String × α)} {k : String} {v : α} {q : String × α}
    (h : q ∈ mapSet l k v) : q = (k, v) ∨ q ∈ l := by
  induction l with
  | nil =>
    rw [mapSet] at h
    rcases List.mem_singleton.mp h with h1
    exact Or.inl h1
  | cons p ps ih =>
    rw [mapSet] at h
    by_cases hp : (p.1 == k) = true
    · rw [if_pos hp] at h
      rcases List.mem_cons.mp h with h1 | h1
      · exact Or.inl h1
      · exact Or.inr (List.mem_cons_of_mem p h1)
    · rw [Bool.not_eq_true] at hp
      rw [if_neg (by rw [hp]; exact Bool.false_ne_true)] at h
      rcases List.mem_cons.mp h with h1 | h1
      · exact Or.inr (h1 ▸ List.mem_cons_self p ps)
      · rcases ih h1 with h2 | h2
        · exact Or.inl h2
        · exact Or.inr (List.mem_cons_of_mem p h2)

lemma NodupKeys_mapSet {α : Type} {l : List (String × α)} (k : String) (v : α)
    (h : NodupKeys l) : NodupKeys (mapSet l k v) := by
  induction l with
  | nil =>
    rw [mapSet]
    exact List.pairwise_singleton _ _
  | cons p ps ih =>
    rcases List.pairwise_cons.mp h with ⟨hp, hps⟩
    by_cases hpk : (p.1 == k) = true
    · have hp1 : p.1 = k := eq_of_beq hpk
      rw [mapSet, if_pos hpk]
      refine List.pairwise_cons.mpr ⟨?_, hps⟩
      intro q hq
      show (k, v).1 ≠ q.1
      rw [← hp1]
      exact hp q hq
    · rw [Bool.not_eq_true] at hpk
      rw [mapSet, if_neg (by rw [hpk]; exact Bool.false_ne_true)]
      refine List.pairwise_cons.mpr ⟨?_, ih hps⟩
      intro q hq
      rcases mem_mapSet hq with h1 | h1
      · rw [h1]
        show p.1 ≠ k
        intro he
        rw [he, beq_self_eq_true] at hpk
        exact Bool.noConfusion hpk
      · exact hp q h1

lemma NodupKeys_mapDelete {α : Type} {l : List (String × α)} (k : String)
    (h : NodupKeys l) : NodupKeys (mapDelete l k) :=
  List.Pairwise.sublist (List.filter_sublist l) h

lemma keyCount_le_one {α : Type} {l : List (String × α)} (jid : String)
    (h : NodupKeys l) : keyCount l jid ≤ 1 := by
  induction l with
  | nil => exact Nat.zero_le 1
  | cons p ps ih =>
    rcases List.pairwise_cons.mp h with ⟨hp, hps⟩
    unfold keyCount at ih ⊢
    rw [List.countP_cons]
    cases hpj : p.1 == jid with
    | false =>
      simp only [hpj, if_neg, Bool.false_eq_true, if_false, Nat.add_zero]
      exact ih hps
    | true =>
      have hp1 : p.1 = jid := eq_of_beq hpj
      have hz : ps.countP (fun q => q.1 == jid) = 0 := by
        rw [List.countP_eq_zero]
        intro q hq
        have hj := hp q hq
        rw [hp1] at hj
        intro hq2
        exact hj (eq_of_beq hq2).symm
      simp only [hpj, if_pos, hz]
      exact Nat.le_refl 1

lemma getOrCreateTopicSeq_shape (b : Bridge) (env : RelayEnv) (jid : String) :
    ((getOrCreateTopicSeq b env jid).2.1 = b ∧ (getOrCreateTopicSeq b env jid).2.2.2 = []) ∨
    (∃ tid pic, (getOrCreateTopicSeq b env jid).2.1 = saveChatMapping b jid tid pic ∧
      (getOrCreateTopicSeq b env jid).2.2.2 = [Act.createTopic jid tid] ∧
      (getOrCreateTopicSeq b env jid).1 = some tid) := by
  unfold getOrCreateTopicSeq
  cases mapLookup b.chatMappings jid with
  | some t => exact Or.inl ⟨rfl, rfl⟩
  | none =>
    cases env.creations with
    | nil => exact Or.inl ⟨rfl, rfl⟩
    | cons oc rest =>
      cases oc with
      | none => exact Or.inl ⟨rfl, rfl⟩
      | some tid => exact Or.inr ⟨tid, env.pics.headD none, rfl, rfl, rfl⟩

lemma nodup_saveChatMapping {b : Bridge} (jid : String) (tid : Nat) (pic : Option String)
    (h : NodupKeys b.chatMappings) :
    NodupKeys (saveChatMapping b jid tid pic).chatMappings :=
  NodupKeys_mapSet jid tid h

lemma nodup_purgeMapping {b : Bridge} (jid : String) (h : NodupKeys b.chatMappings) :
    NodupKeys (purgeMapping b jid).chatMappings :=
  NodupKeys_mapDelete jid h

lemma nodup_getOrCreateTopicSeq {b : Bridge} (env : RelayEnv) (jid : String)
    (h : NodupKeys b.chatMappings) :
    NodupKeys (getOrCreateTopicSeq b env jid).2.1.chatMappings := by
  rcases getOrCreateTopicSeq_shape b env jid with ⟨hb, _⟩ | ⟨tid, pic, hb, _, _⟩
  · rw [hb]; exact h
  · rw [hb]; exact nodup_saveChatMapping jid tid pic h

lemma nodup_sendSimpleMessage {b : Bridge} (env : RelayEnv) (t : Nat)
    (h : NodupKeys b.chatMappings) :
    NodupKeys (sendSimpleMessage b env t).2.1.chatMappings := by
  unfold sendSimpleMessage
  cases env.sends with
  | nil => exact h
  | cons r rest =>
    cases r with
    | ok mid => exact h
    | err => exact h
    | threadNotFound =>
      cases findJidByTopic b.chatMappings t with
      | none => exact h
      | some jid =>
        have h1 : NodupKeys (purgeMapping b jid).chatMappings := nodup_purgeMapping jid h
        rcases hg : getOrCreateTopicSeq (purgeMapping b jid) { env with sends := rest } jid
          with ⟨o, b2, env2, acts⟩
        have h2 : NodupKeys b2.chatMappings := by
          have h3 := nodup_getOrCreateTopicSeq (b := purgeMapping b jid)
            { env with sends := rest } jid h1
          rw [hg] at h3
          exact h3
        simp only [hg]
        cases o with
        | none => exact h2
        | some newTid =>
          rcases he : env2.sends with _ | ⟨r2, rest2⟩
          · simp only [he]
            exact h2
          · simp only [he]
            cases r2 <;> exact h2

lemma nodup_sendMedia (sender : String) :
    ∀ (sends : List SendRes) (creations : List (Option Nat)) (pics : List (Option String))
      (b : Bridge) (t : Nat), NodupKeys b.chatMappings →
      NodupKeys (sendMedia sender sends creations pics b t).1.chatMappings := by
  intro sends
  induction sends with
  | nil => intro creations pics b t h; exact h
  | cons r rest ih =>
    intro creations pics b t h
    cases r with
    | ok mid => exact h
    | err => exact h
    | threadNotFound =>
      show NodupKeys (match getOrCreateTopicSeq (purgeMapping b sender)
          { sends := rest, creations := creations, pics := pics } sender with
        | (none, b2, _, acts) => (b2, Act.sendAttempt t :: Act.purge sender :: acts)
        | (some newTid, b2, env2, acts) =>
          let r2 := sendMedia sender rest env2.creations env2.pics b2 newTid
          (r2.1, Act.sendAttempt t :: Act.purge sender :: (acts ++ r2.2))).1.chatMappings
      have h1 : NodupKeys (purgeMapping b sender).chatMappings := nodup_purgeMapping sender h
      rcases hg : getOrCreateTopicSeq (purgeMapping b sender)
          { sends := rest, creations := creations, pics := pics } sender
        with ⟨o, b2, env2, acts⟩
      have h2 : NodupKeys b2.chatMappings := by
        have h3 := nodup_getOrCreateTopicSeq (b := purgeMapping b sender)
          { sends := rest, creations := creations, pics := pics } sender h1
        rw [hg] at h3
        exact h3
      simp only [hg]
      cases o with
      | none => exact h2
      | some newTid => exact ih env2.creations env2.pics b2 newTid h2

lemma nodup_applyOp {b : Bridge} (op : BridgeOp) (h : NodupKeys b.chatMappings) :
    NodupKeys (applyOp b op).chatMappings := by
  cases op with
  | save jid tid pic => exact nodup_saveChatMapping jid tid pic h
  | purgeO jid => exact nodup_purgeMapping jid h
  | relaySimple env t => exact nodup_sendSimpleMessage env t h
  | relayMedia env sender t => exact nodup_sendMedia sender env.sends env.creations env.pics b t h
  | create env jid => exact nodup_getOrCreateTopicSeq env jid h

lemma nodup_runOps (ops : List BridgeOp) : NodupKeys (runOps ops).chatMappings := by
  have hgen : ∀ b : Bridge, NodupKeys b.chatMappings →
      NodupKeys (ops.foldl applyOp b).chatMappings := by
    induction ops with
    | nil => intro b h; exact h
    | cons op rest ih =>
      intro b h
      exact ih (applyOp b op) (nodup_applyOp op h)
  exact hgen emptyBridge List.Pairwise.nil

lemma getOrCreateTopicSeq_purged_none (b : Bridge) (env : RelayEnv) (jid : String) :
    mapLookup (purgeMapping b jid).chatMappings jid = none :=
  mapLookup_mapDelete_self b.chatMappings jid


lemma getOrCreateTopicSeq_unmapped (b : Bridge) (env : RelayEnv) (jid : String)
    (hm : mapLookup b.chatMappings jid = none) :
    (env.creations = [] ∧ getOrCreateTopicSeq b env jid = (none, b, env, [])) ∨
    (∃ crest, env.creations = none :: crest ∧
      getOrCreateTopicSeq b env jid = (none, b, { env with creations := crest }, [])) ∨
    (∃ tid crest, env.creations = some tid :: crest ∧
      getOrCreateTopicSeq b env jid =
        (some tid, saveChatMapping b jid tid (env.pics.headD none),
         { env with creations := crest, pics := env.pics.tail },
         [Act.createTopic jid tid])) := by
  unfold getOrCreateTopicSeq
  rw [hm]
  rcases hc : env.creations with _ | ⟨oc, crest⟩
  · exact Or.inl ⟨rfl, rfl⟩
  · cases oc with
    | none => exact Or.inr (Or.inl ⟨crest, rfl, rfl⟩)
    | some tid => exact Or.inr (Or.inr ⟨tid, crest, rfl, rfl⟩)

lemma sendSimpleMessage_cases (b : Bridge) (env : RelayEnv) (t : Nat) :
    ((sendSimpleMessage b env t).2.2.2 = [Act.sendAttempt t] ∧
      (sendSimpleMessage b env t).2.1 = b) ∨
    (∃ jid, (sendSimpleMessage b env t).2.2.2 = [Act.sendAttempt t, Act.purge jid] ∧
      (sendSimpleMessage b env t).2.1 = purgeMapping b jid) ∨
    (∃ jid tid, (sendSimpleMessage b env t).2.2.2 =
        [Act.sendAttempt t, Act.purge jid, Act.createTopic jid tid, Act.sendAttempt tid] ∧
      (sendSimpleMessage b env t).2.1 =
        saveChatMapping (purgeMapping b jid) jid tid (env.pics.headD none)) := by
  unfold sendSimpleMessage
  rcases hs : env.sends with _ | ⟨r, rest⟩
  · exact Or.inl ⟨rfl, rfl⟩
  · cases r with
    | ok mid => exact Or.inl ⟨rfl, rfl⟩
    | err => exact Or.inl ⟨rfl, rfl⟩
    | threadNotFound =>
      cases hj : findJidByTopic b.chatMappings t with
      | none => exact Or.inl ⟨rfl, rfl⟩
      | some jid =>
        rcases getOrCreateTopicSeq_unmapped (purgeMapping b jid) { env with sends := rest } jid
            (getOrCreateTopicSeq_purged_none b { env with sends := rest } jid)
          with ⟨_, hg⟩ | ⟨crest, _, hg⟩ | ⟨tid, crest, _, hg⟩
      <;> simp only [hg]
        · exact Or.inr (Or.inl ⟨jid, rfl, rfl⟩)
        · exact Or.inr (Or.inl ⟨jid, rfl, rfl⟩)
        · rcases rest with _ | ⟨r2, rest2⟩
          · exact Or.inr (Or.inr ⟨jid, tid, rfl, rfl⟩)
          · cases r2 with
            | ok mid2 => exact Or.inr (Or.inr ⟨jid, tid, rfl, rfl⟩)
            | threadNotFound => exact Or.inr (Or.inr ⟨jid, tid, rfl, rfl⟩)
            | err => exact Or.inr (Or.inr ⟨jid, tid, rfl, rfl⟩)

lemma purgeBeforeCreate_sendSimple (b : Bridge) (env : RelayEnv) (t : Nat) :
    purgeBeforeCreate (sendSimpleMessage b env t).2.2.2 [] = true := by
  rcases sendSimpleMessage_cases b env t with ⟨h1, _⟩ | ⟨jid, h1, _⟩ | ⟨jid, tid, h1, _⟩ <;>
    rw [h1]
  · rfl
  · rfl
  · show purgeBeforeCreate
      [Act.purge jid, Act.createTopic jid tid, Act.sendAttempt tid] [] = true
    show purgeBeforeCreate [Act.createTopic jid tid, Act.sendAttempt tid] [jid] = true
    show (if jid ∈ [jid] then purgeBeforeCreate [Act.sendAttempt tid] [jid] else false) = true
    rw [if_pos (List.mem_singleton.mpr rfl)]
    rfl

lemma purgeBeforeCreate_sendMedia (sender : String) :
    ∀ (sends : List SendRes) (creations : List (Option Nat)) (pics : List (Option String))
      (b : Bridge) (t : Nat) (seen : List String),
      purgeBeforeCreate (sendMedia sender sends creations pics b t).2 seen = true := by
  intro sends
  induction sends with
  | nil => intro creations pics b t seen; rfl
  | cons r rest ih =>
    intro creations pics b t seen
    cases r with
    | ok mid => rfl
    | err => rfl
    | threadNotFound =>
      show purgeBeforeCreate
        (match getOrCreateTopicSeq (purgeMapping b sender)
            { sends := rest, creations := creations, pics := pics } sender with
          | (none, b2, _, acts) => (b2, Act.sendAttempt t :: Act.purge sender :: acts)
          | (some newTid, b2, env2, acts) =>
            let r2 := sendMedia sender rest env2.creations env2.pics b2 newTid
            (r2.1, Act.sendAttempt t :: Act.purge sender :: (acts ++ r2.2))).2 seen = true
      rcases getOrCreateTopicSeq_unmapped (purgeMapping b sender)
          { sends := rest, creations := creations, pics := pics } sender
          (getOrCreateTopicSeq_purged_none b
            { sends := rest, creations := creations, pics := pics } sender)
        with ⟨_, hg⟩ | ⟨crest, _, hg⟩ | ⟨tid, crest, _, hg⟩ <;> simp only [hg]
      · rfl
      · rfl
      · show purgeBeforeCreate
          (Act.sendAttempt t :: Act.purge sender ::
            ([Act.createTopic sender tid] ++
              (sendMedia sender rest crest pics.tail
                (saveChatMapping (purgeMapping b sender) sender tid (pics.headD none))
                tid).2)) seen = true
        show purgeBeforeCreate
          (Act.createTopic sender tid ::
            (sendMedia sender rest crest pics.tail
              (saveChatMapping (purgeMapping b sender) sender tid (pics.headD none))
              tid).2) (sender :: seen) = true
        show (if sender ∈ sender :: seen then
            purgeBeforeCreate
              (sendMedia sender rest crest pics.tail
                (saveChatMapping (purgeMapping b sender) sender tid (pics.headD none))
                tid).2 (sender :: seen)
          else false) = true
        rw [if_pos (List.mem_cons_self sender seen)]
        exact ih crest pics.tail _ tid (sender :: seen)

/-- C4: the topic map holds at most one entry per conversation in every
state reachable by the bridge's mapping operations, the purge of a
mapping reported missing removes it from the in-memory map, the
profile-picture cache and the durable collection, and in the recovery
runs of sendSimpleMessage and of the media path every topic creation is
preceded in the trace by the purge of that same conversation. -/
theorem topic_mapping_unique_and_purged (ops : List BridgeOp) (jid : String)
    (b : Bridge) (env : RelayEnv) (t : Nat) :
    keyCount (runOps ops).chatMappings jid ≤ 1 ∧
    mapLookup (purgeMapping b jid).chatMappings jid = none ∧
    mapLookup (purgeMapping b jid).profilePicCache jid = none ∧
    mapLookup (purgeMapping b jid).collection jid = none ∧
    purgeBeforeCreate (sendSimpleMessage b env t).2.2.2 [] = true ∧
    (∀ (sender : String) (sends : List SendRes) (creations : List (Option Nat))
        (pics : List (Option String)) (t2 : Nat),
      purgeBeforeCreate (sendMedia sender sends creations pics b t2).2 [] = true) :=
  ⟨keyCount_le_one jid (nodup_runOps ops),
   mapLookup_mapDelete_self b.chatMappings jid,
   mapLookup_mapDelete_self b.profilePicCache jid,
   mapLookup_mapDelete_self b.collection jid,
   purgeBeforeCreate_sendSimple b env t,
   fun sender sends creations pics t2 =>
     purgeBeforeCreate_sendMedia sender sends creations pics b t2 []⟩

lemma countCreates_nil : countCreates [] = 0 := rfl

lemma countCreates_cons (a : Act) (tr : List Act) :
    countCreates (a :: tr) =
      countCreates tr + (match a with | .createTopic _ _ => 1 | _ => 0) := by
  unfold countCreates
  rw [List.countP_cons]
  cases a <;> rfl

lemma countSends_cons (a : Act) (tr : List Act) :
    countSends (a :: tr) =
      countSends tr + (match a with | .sendAttempt _ => 1 | _ => 0) := by
  unfold countSends
  rw [List.countP_cons]
  cases a <;> rfl

lemma sendMedia_creates_count (sender : String) (m7 : Nat) :
    ∀ (n : Nat) (b : Bridge) (t : Nat),
      countCreates (sendMedia sender
        (List.replicate n SendRes.threadNotFound ++ [SendRes.ok m7])
        (List.replicate n (some 7)) [] b t).2 = n := by
  intro n
  induction n with
  | zero => intro b t; rfl
  | succ k ih =>
    intro b t
    rw [List.replicate_succ, List.replicate_succ, List.cons_append]
    show countCreates
      (match getOrCreateTopicSeq (purgeMapping b sender)
          { sends := List.replicate k SendRes.threadNotFound ++ [SendRes.ok m7]
          , creations := some 7 :: List.replicate k (some 7), pics := [] } sender with
        | (none, b2, _, acts) => (b2, Act.sendAttempt t :: Act.purge sender :: acts)
        | (some newTid, b2, env2, acts) =>
          let r2 := sendMedia sender (List.replicate k SendRes.threadNotFound ++ [SendRes.ok m7])
            env2.creations env2.pics b2 newTid
          (r2.1, Act.sendAttempt t :: Act.purge sender :: (acts ++ r2.2))).2 = k + 1
    have hg : getOrCreateTopicSeq (purgeMapping b sender)
        { sends := List.replicate k SendRes.threadNotFound ++ [SendRes.ok m7]
        , creations := some 7 :: List.replicate k (some 7), pics := [] } sender =
        (some 7, saveChatMapping (purgeMapping b sender) sender 7 none,
         { sends := List.replicate k SendRes.threadNotFound ++ [SendRes.ok m7]
         , creations := List.replicate k (some 7), pics := [] },
         [Act.createTopic sender 7]) := by
      unfold getOrCreateTopicSeq
      rw [getOrCreateTopicSeq_purged_none b
        { sends := List.replicate k SendRes.threadNotFound ++ [SendRes.ok m7]
        , creations := some 7 :: List.replicate k (some 7), pics := [] } sender]
      rfl
    simp only [hg]
    show countCreates
      (Act.sendAttempt t :: Act.purge sender ::
        ([Act.createTopic sender 7] ++
          (sendMedia sender (List.replicate k SendRes.threadNotFound ++ [SendRes.ok m7])
            (List.replicate k (some 7)) []
            (saveChatMapping (purgeMapping b sender) sender 7 none) 7).2)) = k + 1
    rw [countCreates_cons, countCreates_cons]
    unfold countCreates
    rw [List.countP_append]
    show (List.countP _ [Act.createTopic sender 7] +
      List.countP _ (sendMedia sender
        (List.replicate k SendRes.threadNotFound ++ [SendRes.ok m7])
        (List.replicate k (some 7)) []
        (saveChatMapping (purgeMapping b sender) sender 7 none) 7).2) + 0 + 0 = k + 1
    have hk := ih (saveChatMapping (purgeMapping b sender) sender 7 none) 7
    unfold countCreates at hk
    rw [hk]
    show 1 + k + 0 + 0 = k + 1
    omega

lemma sendSimpleMessage_no_tnf (b : Bridge) (env : RelayEnv) (t : Nat)
    (h : env.sends.head? ≠ some SendRes.threadNotFound) :
    (sendSimpleMessage b env t).2.2.2 = [Act.sendAttempt t] ∧
    (sendSimpleMessage b env t).2.1 = b := by
  unfold sendSimpleMessage
  rcases hs : env.sends with _ | ⟨r, rest⟩
  · exact ⟨rfl, rfl⟩
  · rw [hs] at h
    cases r with
    | ok mid => exact ⟨rfl, rfl⟩
    | err => exact ⟨rfl, rfl⟩
    | threadNotFound => exact absurd rfl h

lemma sendSimpleMessage_recover (b : Bridge) (env : RelayEnv) (t : Nat)
    (jid : String) (tid : Nat) (rest : List SendRes) (crest : List (Option Nat))
    (hs : env.sends = SendRes.threadNotFound :: rest)
    (hj : findJidByTopic b.chatMappings t = some jid)
    (hc : env.creations = some tid :: crest) :
    (sendSimpleMessage b env t).2.1 =
      saveChatMapping (purgeMapping b jid) jid tid (env.pics.headD none) ∧
    mapLookup (sendSimpleMessage b env t).2.1.chatMappings jid = some tid ∧
    (sendSimpleMessage b env t).2.2.2 =
      [Act.sendAttempt t, Act.purge jid, Act.createTopic jid tid, Act.sendAttempt tid] := by
  unfold sendSimpleMessage
  simp only [hs, hj]
  rcases getOrCreateTopicSeq_unmapped (purgeMapping b jid) { env with sends := rest } jid
      (getOrCreateTopicSeq_purged_none b { env with sends := rest } jid)
    with ⟨hc2, hg⟩ | ⟨crest2, hc2, hg⟩ | ⟨tid2, crest2, hc2, hg⟩
  · rw [show ({ env with sends := rest } : RelayEnv).creations = env.creations from rfl,
      hc] at hc2
    exact List.noConfusion hc2
  · rw [show ({ env with sends := rest } : RelayEnv).creations = env.creations from rfl,
      hc] at hc2
    injection hc2 with h1 _
    exact Option.noConfusion h1
  · rw [show ({ env with sends := rest } : RelayEnv).creations = env.creations from rfl,
      hc] at hc2
    injection hc2 with h1 h2
    injection h1 with h1
    subst h1
    subst h2
    simp only [hg]
    have hmap : mapLookup
        (saveChatMapping (purgeMapping b jid) jid tid
          (({ env with sends := rest } : RelayEnv).pics.headD none)).chatMappings jid
        = some tid := by
      show mapLookup (mapSet (purgeMapping b jid).chatMappings jid tid) jid = some tid
      rw [mapLookup_mapSet, if_pos rfl]
    rcases rest with _ | ⟨r2, rest2⟩
    · exact ⟨rfl, hmap, rfl⟩
    · cases r2 with
      | ok mid2 => exact ⟨rfl, hmap, rfl⟩
      | threadNotFound => exact ⟨rfl, hmap, rfl⟩
      | err => exact ⟨rfl, hmap, rfl⟩

/-- C5 counterexample: a media relay in an environment where the first
two sends fail with thread-not-found performs two purge-recreate-retry
rounds, so the number of recreations per relay attempt is not bounded by
one. -/
theorem media_retry_unbounded_cex :
    countCreates (sendMedia "7@s.whatsapp.net"
      [SendRes.threadNotFound, SendRes.threadNotFound, SendRes.ok 1]
      [some 11, some 12] [] emptyBridge 5).2 = 2 ∧
    ¬(countCreates (sendMedia "7@s.whatsapp.net"
      [SendRes.threadNotFound, SendRes.threadNotFound, SendRes.ok 1]
      [some 11, some 12] [] emptyBridge 5).2 ≤ 1) := by
  constructor <;> decide

/-- C5 amended: sendSimpleMessage recreates and retries at most once per
relay, and only on the thread-not-found error (on any other outcome no
purge or creation happens and the mapping state is untouched); after a
successful recreation the mapping holds the new topic id and the trace is
exactly send, purge, create, retry. The media path instead retries
recursively: with n successive thread-not-found failures it performs n
recreations. -/
theorem relay_retry_semantics (b : Bridge) (env : RelayEnv) (t : Nat) (n : Nat)
    (sender : String) (m7 : Nat) (b2 : Bridge) (t2 : Nat) :
    countCreates (sendSimpleMessage b env t).2.2.2 ≤ 1 ∧
    countSends (sendSimpleMessage b env t).2.2.2 ≤ 2 ∧
    (env.sends.head? ≠ some SendRes.threadNotFound →
      countCreates (sendSimpleMessage b env t).2.2.2 = 0 ∧
      countSends (sendSimpleMessage b env t).2.2.2 = 1 ∧
      (sendSimpleMessage b env t).2.1 = b) ∧
    (∀ jid tid rest crest,
      env.sends = SendRes.threadNotFound :: rest →
      findJidByTopic b.chatMappings t = some jid →
      env.creations = some tid :: crest →
      mapLookup (sendSimpleMessage b env t).2.1.chatMappings jid = some tid ∧
      (sendSimpleMessage b env t).2.2.2 =
        [Act.sendAttempt t, Act.purge jid, Act.createTopic jid tid, Act.sendAttempt tid]) ∧
    countCreates (sendMedia sender
      (List.replicate n SendRes.threadNotFound ++ [SendRes.ok m7])
      (List.replicate n (some 7)) [] b2 t2).2 = n := by
  refine ⟨?_, ?_, ?_, ?_, sendMedia_creates_count sender m7 n b2 t2⟩
  · rcases sendSimpleMessage_cases b env t with ⟨h1, _⟩ | ⟨jid, h1, _⟩ | ⟨jid, tid, h1, _⟩ <;>
      rw [h1]
    · exact Nat.zero_le 1
    · exact Nat.zero_le 1
    · exact Nat.le_refl 1
  · rcases sendSimpleMessage_cases b env t with ⟨h1, _⟩ | ⟨jid, h1, _⟩ | ⟨jid, tid, h1, _⟩ <;>
      rw [h1]
    · exact Nat.le_succ 1
    · exact Nat.le_succ 1
    · exact Nat.le_refl 2
  · intro h
    obtain ⟨h1, h2⟩ := sendSimpleMessage_no_tnf b env t h
    rw [h1, h2]
    exact ⟨rfl, rfl, rfl⟩
  · intro jid tid rest crest hs hj hc
    obtain ⟨_, h2, h3⟩ := sendSimpleMessage_recover b env t jid tid rest crest hs hj hc
    exact ⟨h2, h3⟩

/-- A concrete mapped bridge for the C5 witness. -/
def bridgeSample : Bridge :=
  { chatMappings := [("7@s.whatsapp.net", 5)], profilePicCache := [], collection := [] }

/-- A concrete environment whose first send fails with thread-not-found
and whose creation succeeds, for the C5 witness. -/
def envSample : RelayEnv :=
  { sends := [SendRes.threadNotFound, SendRes.ok 9], creations := [some 6], pics := [] }

/-- C5 amended witness: the retry-semantics theorem evaluated at a
concrete mapped bridge, a concrete recovering environment, and two
consecutive media failures. -/
theorem relay_retry_semantics_witness :
    countCreates (sendSimpleMessage bridgeSample envSample 5).2.2.2 ≤ 1 ∧
    countSends (sendSimpleMessage bridgeSample envSample 5).2.2.2 ≤ 2 ∧
    mapLookup (sendSimpleMessage bridgeSample envSample 5).2.1.chatMappings
      "7@s.whatsapp.net" = some 6 ∧
    (sendSimpleMessage bridgeSample envSample 5).2.2.2 =
      [Act.sendAttempt 5, Act.purge "7@s.whatsapp.net",
       Act.createTopic "7@s.whatsapp.net" 6, Act.sendAttempt 6] ∧
    countCreates (sendMedia "9@s.whatsapp.net"
      (List.replicate 2 SendRes.threadNotFound ++ [SendRes.ok 1])
      (List.replicate 2 (some 7)) [] emptyBridge 3).2 = 2 := by
  obtain ⟨w1, w2, _, w4, w5⟩ :=
    relay_retry_semantics bridgeSample envSample 5 2 "9@s.whatsapp.net" 1 emptyBridge 3
  obtain ⟨w6, w7⟩ := w4 "7@s.whatsapp.net" 6 [SendRes.ok 9] [] rfl (by decide) rfl
  exact ⟨w1, w2, w6, w7, w5⟩

/-- One item of the read-receipt batcher's timer-ordered agenda: an
enqueue (queueMessageForReadReceipt, which also schedules a fire 2000 ms
later) or the firing of one of those timers (processReadReceipts). -/
inductive RREvent where
  | enqueue (jid : String) (key : Nat)
  | fire (jid : String)
deriving DecidableEq

/-- State of the read-receipt batcher: the per-conversation messageQueue
map, every readMessages call made so far with its key list, and the
number of calls made (indexing the outcome oracle). -/
structure RRState where
  messageQueue : String → List Nat
  attempts : List (String × List Nat)
  attemptCount : Nat

/-- The batcher before any enqueue. -/
def rrInit : RRState := { messageQueue := fun _ => [], attempts := [], attemptCount := 0 }

/-- queueMessageForReadReceipt pushes the key onto the conversation's
pending list; processReadReceipts returns on an empty list and otherwise
calls readMessages once with the whole list, clearing it only when the
call does not throw, because the clear sits inside the try after the
await. -/
def rrStep (outcomes : Nat → Bool) (s : RRState) : RREvent → RRState
  | .enqueue jid key =>
    { s with messageQueue :=
        fun j => if j = jid then s.messageQueue jid ++ [key] else s.messageQueue j }
  | .fire jid =>
    if s.messageQueue jid = [] then s
    else if outcomes s.attemptCount then
      { messageQueue := fun j => if j = jid then [] else s.messageQueue j
      , attempts := s.attempts ++ [(jid, s.messageQueue jid)]
      , attemptCount := s.attemptCount + 1 }
    else
      { s with
        attempts := s.attempts ++ [(jid, s.messageQueue jid)]
        attemptCount := s.attemptCount + 1 }

/-- A run of the batcher over a timer-ordered agenda. -/
def rrRun (outcomes : Nat → Bool) (evs : List RREvent) (s : RRState) : RRState :=
  evs.foldl (rrStep outcomes) s

/-- The keys enqueued for a conversation in an agenda segment, in order. -/
def keysOf (evs : List RREvent) (jid : String) : List Nat :=
  evs.filterMap (fun e =>
    match e with
    | .enqueue j k => if j = jid then some k else none
    | .fire _ => none)

lemma rrStep_queue_enqueue (outcomes : Nat → Bool) (s : RRState) (j : String) (k : Nat)
    (jid : String) :
    (rrStep outcomes s (.enqueue j k)).messageQueue jid =
      if jid = j then s.messageQueue j ++ [k] else s.messageQueue jid := rfl

lemma rrStep_queue_fire_other (outcomes : Nat → Bool) (s : RRState) (j jid : String)
    (hj : j ≠ jid) :
    (rrStep outcomes s (.fire j)).messageQueue jid = s.messageQueue jid := by
  simp only [rrStep]
  by_cases he : s.messageQueue j = []
  · rw [if_pos he]
  · rw [if_neg he]
    by_cases ho : outcomes s.attemptCount = true
    · rw [if_pos ho]
      show (if jid = j then [] else s.messageQueue jid) = s.messageQueue jid
      rw [if_neg (fun h2 => hj h2.symm)]
    · rw [if_neg ho]

lemma keysOf_cons_enqueue_self (j : String) (k : Nat) (rest : List RREvent) :
    keysOf (.enqueue j k :: rest) j = k :: keysOf rest j := by
  simp [keysOf, List.filterMap_cons]

lemma keysOf_cons_enqueue_other (j : String) (k : Nat) (rest : List RREvent) (jid : String)
    (hj : j ≠ jid) :
    keysOf (.enqueue j k :: rest) jid = keysOf rest jid := by
  simp [keysOf, List.filterMap_cons, hj]

lemma keysOf_cons_fire (j : String) (rest : List RREvent) (jid : String) :
    keysOf (.fire j :: rest) jid = keysOf rest jid := by
  simp [keysOf, List.filterMap_cons]

lemma rrRun_queue_no_fire (outcomes : Nat → Bool) (jid : String) :
    ∀ (evs : List RREvent) (s : RRState), RREvent.fire jid ∉ evs →
      (rrRun outcomes evs s).messageQueue jid = s.messageQueue jid ++ keysOf evs jid := by
  intro evs
  induction evs with
  | nil => intro s _; rw [rrRun, List.foldl_nil, keysOf, List.filterMap_nil, List.append_nil]
  | cons e rest ih =>
    intro s hnf
    have hnf2 : RREvent.fire jid ∉ rest := fun h => hnf (List.mem_cons_of_mem e h)
    show (rrRun outcomes rest (rrStep outcomes s e)).messageQueue jid = _
    rw [ih _ hnf2]
    cases e with
    | enqueue j k =>
      rw [rrStep_queue_enqueue]
      by_cases hj : jid = j
      · subst hj
        rw [if_pos rfl, keysOf_cons_enqueue_self, List.append_assoc]
        rfl
      · rw [if_neg hj, keysOf_cons_enqueue_other j k rest jid (fun he => hj he.symm)]
    | fire j =>
      have hj : j ≠ jid := fun he => hnf (he ▸ List.mem_cons_self _ rest)
      rw [rrStep_queue_fire_other outcomes s j jid hj, keysOf_cons_fire]

/-- C7 counterexample: when the first readMessages call throws, the
pending keys are not dropped: they remain queued after the failed flush,
and the next timer's flush sends the very same keys again, so a failed
acknowledgement is retried. -/
theorem readReceipts_failed_not_dropped_cex :
    (rrRun (fun i => i != 0)
      [RREvent.enqueue "7@s.whatsapp.net" 1, RREvent.enqueue "7@s.whatsapp.net" 2,
       RREvent.fire "7@s.whatsapp.net"] rrInit).messageQueue "7@s.whatsapp.net" = [1, 2] ∧
    (rrRun (fun i => i != 0)
      [RREvent.enqueue "7@s.whatsapp.net" 1, RREvent.enqueue "7@s.whatsapp.net" 2,
       RREvent.fire "7@s.whatsapp.net", RREvent.fire "7@s.whatsapp.net"] rrInit).attempts =
      [("7@s.whatsapp.net", [1, 2]), ("7@s.whatsapp.net", [1, 2])] ∧
    (rrRun (fun i => i != 0)
      [RREvent.enqueue "7@s.whatsapp.net" 1, RREvent.enqueue "7@s.whatsapp.net" 2,
       RREvent.fire "7@s.whatsapp.net", RREvent.fire "7@s.whatsapp.net"] rrInit).messageQueue
      "7@s.whatsapp.net" = [] := by
  refine ⟨?_, ?_, ?_⟩ <;> decide

/-- C7 amended: an enqueue appends the key to that conversation's pending
list and touches nothing else; a timer firing on an empty list is a
no-op; a timer firing on a non-empty list issues the entire list as one
readMessages call, clearing the list exactly when the call succeeds and
keeping it (to be retried by the next timer) when it throws; and the
first fire for a conversation flushes every key enqueued for it earlier
in the agenda as that one call. -/
theorem readReceipts_batching_semantics (outcomes : Nat → Bool) (s : RRState)
    (jid : String) (k : Nat) (q : List Nat) (pre : List RREvent) :
    ((rrStep outcomes s (.enqueue jid k)).messageQueue jid = s.messageQueue jid ++ [k] ∧
     (∀ j, j ≠ jid →
       (rrStep outcomes s (.enqueue jid k)).messageQueue j = s.messageQueue j) ∧
     (rrStep outcomes s (.enqueue jid k)).attempts = s.attempts) ∧
    (s.messageQueue jid = [] → rrStep outcomes s (.fire jid) = s) ∧
    (s.messageQueue jid = q → q ≠ [] →
      (rrStep outcomes s (.fire jid)).attempts = s.attempts ++ [(jid, q)] ∧
      (outcomes s.attemptCount = true →
        (rrStep outcomes s (.fire jid)).messageQueue jid = []) ∧
      (outcomes s.attemptCount = false →
        (rrStep outcomes s (.fire jid)).messageQueue jid = q)) ∧
    (RREvent.fire jid ∉ pre →
      (rrRun outcomes (pre ++ [RREvent.fire jid]) rrInit).attempts =
        (rrRun outcomes pre rrInit).attempts ++
          (if keysOf pre jid = [] then [] else [(jid, keysOf pre jid)])) := by
  refine ⟨⟨?_, ?_, rfl⟩, ?_, ?_, ?_⟩
  · show (if jid = jid then s.messageQueue jid ++ [k] else s.messageQueue jid) = _
    rw [if_pos rfl]
  · intro j hj
    show (if j = jid then s.messageQueue jid ++ [k] else s.messageQueue j) = _
    rw [if_neg hj]
  · intro h
    simp only [rrStep]
    rw [if_pos h]
  · intro hq hne
    have hnn : ¬(s.messageQueue jid = []) := fun he => hne (hq ▸ he)
    simp only [rrStep]
    rw [if_neg hnn]
    by_cases ho : outcomes s.attemptCount = true
    · rw [if_pos ho]
      refine ⟨by rw [hq], fun _ => ?_, fun hf => absurd ho (by rw [hf]; exact Bool.noConfusion)⟩
      show (if jid = jid then [] else s.messageQueue jid) = []
      rw [if_pos rfl]
    · rw [if_neg ho]
      rw [Bool.not_eq_true] at ho
      exact ⟨by rw [hq], fun ht => absurd ht (by rw [ho]; exact Bool.noConfusion), fun _ => hq⟩
  · intro hnf
    rw [rrRun, List.foldl_append]
    show (rrStep outcomes (rrRun outcomes pre rrInit) (RREvent.fire jid)).attempts = _
    have hq : (rrRun outcomes pre rrInit).messageQueue jid = keysOf pre jid := by
      rw [rrRun_queue_no_fire outcomes jid pre rrInit hnf]
      rfl
    by_cases he : keysOf pre jid = []
    · rw [if_pos he]
      simp only [rrStep]
      rw [if_pos (by rw [hq, he]), List.append_nil]
    · rw [if_neg he]
      simp only [rrStep]
      rw [if_neg (by rw [hq]; exact he)]
      by_cases ho : outcomes (rrRun outcomes pre rrInit).attemptCount = true
      · rw [if_pos ho, hq]
      · rw [if_neg ho, hq]

/-- A concrete batcher state with two pending keys for the C7 witness. -/
def rrStateSample : RRState :=
  { messageQueue := fun j => if j = "7@s.whatsapp.net" then [1, 2] else []
  , attempts := [], attemptCount := 0 }

/-- C7 amended witness: the batching-semantics theorem evaluated at a
concrete state with two pending keys, a failing acknowledgement oracle,
and a concrete two-enqueue window. -/
theorem readReceipts_batching_semantics_witness :
    (rrStep (fun _ => false) rrStateSample (.enqueue "7@s.whatsapp.net" 3)).messageQueue
      "7@s.whatsapp.net" = [1, 2, 3] ∧
    rrStep (fun _ => false) rrStateSample (.fire "9@s.whatsapp.net") = rrStateSample ∧
    (rrStep (fun _ => false) rrStateSample (.fire "7@s.whatsapp.net")).attempts =
      [("7@s.whatsapp.net", [1, 2])] ∧
    (rrStep (fun _ => false) rrStateSample (.fire "7@s.whatsapp.net")).messageQueue
      "7@s.whatsapp.net" = [1, 2] ∧
    (rrRun (fun _ => false)
      ([RREvent.enqueue "7@s.whatsapp.net" 1, RREvent.enqueue "7@s.whatsapp.net" 2] ++
        [RREvent.fire "7@s.whatsapp.net"]) rrInit).attempts =
      (rrRun (fun _ => false)
        [RREvent.enqueue "7@s.whatsapp.net" 1, RREvent.enqueue "7@s.whatsapp.net" 2]
        rrInit).attempts ++ [("7@s.whatsapp.net", [1, 2])] := by
  obtain ⟨⟨w1, _, _⟩, w2, w3, w4⟩ :=
    readReceipts_batching_semantics (fun _ => false) rrStateSample "7@s.whatsapp.net" 3
      [1, 2] [RREvent.enqueue "7@s.whatsapp.net" 1, RREvent.enqueue "7@s.whatsapp.net" 2]
  obtain ⟨_, w5, _, _⟩ :=
    readReceipts_batching_semantics (fun _ => false) rrStateSample "9@s.whatsapp.net" 3
      [1, 2] []
  obtain ⟨w6, _, w7⟩ := w3 (by decide) (by decide)
  refine ⟨?_, w5 (by decide), w6, w7 rfl, ?_⟩
  · rw [w1]
    decide
  · rw [w4 (by decide)]
    decide

/-- Status of one getOrCreateTopic caller: suspended at the initial
normalization await, registered on the shared creation promise, or
returned with a value. -/
inductive TStatus where
  | pending
  | waiting
  | done (v : Option Nat)
deriving DecidableEq

/-- Shared state of the conversation under concurrent getOrCreateTopic
calls: the chatMappings entry, whether creatingTopics holds the promise,
the promise's resolution, the number of creation bodies started (each
makes exactly one createForumTopic call), and the callers. -/
structure TopicSys where
  mapping : Option Nat
  creating : Bool
  result : Option (Option Nat)
  createCalls : Nat
  tasks : List TStatus

/-- Events of the event loop. resume i is caller i's synchronous segment
after its first await: it checks chatMappings, then creatingTopics, and
otherwise runs the creation body's synchronous prefix (which initiates
the createForumTopic call) and registers the promise - all without an
interleaving point, then awaits the promise. complete o is the creation
body finishing: on success the mapping was saved, the finally deletes
the creatingTopics entry, and the promise resolves with o. finish i is a
waiting caller returning the resolved value. -/
inductive TopicEv where
  | resume (i : Nat)
  | complete (o : Option Nat)
  | finish (i : Nat)

/-- One event-loop step of the concurrent getOrCreateTopic model. The
model takes the configured chat id for granted. -/
def topicStep (s : TopicSys) : TopicEv → TopicSys
  | .resume i =>
    match s.tasks[i]? with
    | some .pending =>
      match s.mapping with
      | some t => { s with tasks := s.tasks.set i (.done (some t)) }
      | none =>
        if s.creating then { s with tasks := s.tasks.set i .waiting }
        else
          { s with
            creating := true, createCalls := s.createCalls + 1,
            tasks := s.tasks.set i .waiting }
    | _ => s
  | .complete o =>
    if s.creating = true ∧ s.result = none then
      { s with
        result := some o, creating := false,
        mapping := match o with | some t => some t | none => s.mapping }
    else s
  | .finish i =>
    match s.tasks[i]?, s.result with
    | some .waiting, some v => { s with tasks := s.tasks.set i (.done v) }
    | _, _ => s

/-- The state with n callers all suspended at their first await, no
mapping and no creation in flight. -/
def initTopicSys (n : Nat) : TopicSys :=
  { mapping := none, creating := false, result := none, createCalls := 0
  , tasks := List.replicate n .pending }

/-- All resume segments executed in the given interleaving order. -/
def resumePhase (order : List Nat) (s : TopicSys) : TopicSys :=
  order.foldl (fun s i => topicStep s (.resume i)) s

/-- All waiting callers returning, in the given order. -/
def finishPhase (fins : List Nat) (s : TopicSys) : TopicSys :=
  fins.foldl (fun s i => topicStep s (.finish i)) s

/-- Invariant of the resume phase: R is the set of callers that have run
their resume segment. -/
def Phase1Inv (n : Nat) (R : List Nat) (s : TopicSys) : Prop :=
  s.mapping = none ∧ s.result = none ∧
  (s.creating = true ↔ R ≠ []) ∧
  s.createCalls = (if R = [] then 0 else 1) ∧
  s.tasks.length = n ∧
  (∀ i, i < n → s.tasks[i]? = some (if i ∈ R then TStatus.waiting else TStatus.pending))

lemma Phase1Inv_congr (n : Nat) (R1 R2 : List Nat) (s : TopicSys)
    (hm : ∀ i, i ∈ R1 ↔ i ∈ R2) (h : Phase1Inv n R1 s) : Phase1Inv n R2 s := by
  obtain ⟨h1, h2, h3, h4, h5, h6⟩ := h
  have hem : (R1 = []) ↔ (R2 = []) := by
    rw [List.eq_nil_iff_forall_not_mem, List.eq_nil_iff_forall_not_mem]
    constructor
    · intro h a ha
      exact h a ((hm a).mpr ha)
    · intro h a ha
      exact h a ((hm a).mp ha)
  refine ⟨h1, h2, ?_, ?_, h5, ?_⟩
  · rw [h3]
    exact not_congr hem
  · rw [h4]
    by_cases he : R1 = []
    · rw [if_pos he, if_pos (hem.mp he)]
    · rw [if_neg he, if_neg (fun h2 => he (hem.mpr h2))]
  · intro i hi
    rw [h6 i hi]
    by_cases hiR : i ∈ R1
    · rw [if_pos hiR, if_pos ((hm i).mp hiR)]
    · rw [if_neg hiR, if_neg (fun h2 => hiR ((hm i).mpr h2))]

lemma phase1_step (n : Nat) (R : List Nat) (s : TopicSys) (i : Nat)
    (hinv : Phase1Inv n R s) (hi : i < n) (hiR : i ∉ R) :
    Phase1Inv n (i :: R) (topicStep s (.resume i)) := by
  obtain ⟨h1, h2, h3, h4, h5, h6⟩ := hinv
  have hti : s.tasks[i]? = some TStatus.pending := by
    rw [h6 i hi, if_neg hiR]
  have hlt : i < s.tasks.length := by rw [h5]; exact hi
  simp only [topicStep]
  rw [hti, h1]
  by_cases hR : R = []
  · have hcf : s.creating = false := by
      rw [Bool.eq_false_iff]
      intro hct
      exact (h3.mp hct) hR
    rw [if_neg (by rw [hcf]; exact fun h => Bool.noConfusion h)]
    refine ⟨rfl, h2, ?_, ?_, ?_, ?_⟩
    · simp [List.cons_ne_nil]
    · show s.createCalls + 1 = if i :: R = [] then 0 else 1
      rw [if_neg (List.cons_ne_nil i R), h4, if_pos hR]
    · show (s.tasks.set i TStatus.waiting).length = n
      rw [List.length_set, h5]
    · intro j hj
      by_cases hji : j = i
      · subst hji
        show (s.tasks.set j TStatus.waiting)[j]? = _
        rw [List.getElem?_set_self hlt, if_pos (List.mem_cons_self j R)]
      · show (s.tasks.set i TStatus.waiting)[j]? = _
        rw [List.getElem?_set_ne (fun he => hji he.symm), h6 j hj]
        by_cases hjR : j ∈ R
        · rw [if_pos hjR, if_pos (List.mem_cons_of_mem i hjR)]
        · rw [if_neg hjR, if_neg (by
            intro hmem
            rcases List.mem_cons.mp hmem with he | he
            · exact hji he
            · exact hjR he)]
  · have hct : s.creating = true := h3.mpr hR
    rw [if_pos hct]
    refine ⟨rfl, h2, ?_, ?_, ?_, ?_⟩
    · show s.creating = true ↔ i :: R ≠ []
      simp [hct, List.cons_ne_nil]
    · show s.createCalls = if i :: R = [] then 0 else 1
      rw [if_neg (List.cons_ne_nil i R), h4, if_neg hR]
    · show (s.tasks.set i TStatus.waiting).length = n
      rw [List.length_set, h5]
    · intro j hj
      by_cases hji : j = i
      · subst hji
        show (s.tasks.set j TStatus.waiting)[j]? = _
        rw [List.getElem?_set_self hlt, if_pos (List.mem_cons_self j R)]
      · show (s.tasks.set i TStatus.waiting)[j]? = _
        rw [List.getElem?_set_ne (fun he => hji he.symm), h6 j hj]
        by_cases hjR : j ∈ R
        · rw [if_pos hjR, if_pos (List.mem_cons_of_mem i hjR)]
        · rw [if_neg hjR, if_neg (by
            intro hmem
            rcases List.mem_cons.mp hmem with he | he
            · exact hji he
            · exact hjR he)]

lemma phase1_run (n : Nat) :
    ∀ (order : List Nat) (R : List Nat) (s : TopicSys),
      Phase1Inv n R s → order.Nodup → (∀ i ∈ order, i < n) → (∀ i ∈ order, i ∉ R) →
      Phase1Inv n (order ++ R) (resumePhase order s) := by
  intro order
  induction order with
  | nil =>
    intro R s hinv _ _ _
    exact hinv
  | cons i rest ih =>
    intro R s hinv hnd hlt hnR
    have hstep := phase1_step n R s i hinv (hlt i (List.mem_cons_self i rest))
      (hnR i (List.mem_cons_self i rest))
    have hnd2 := List.nodup_cons.mp hnd
    have hrest := ih (i :: R) (topicStep s (.resume i)) hstep hnd2.2
      (fun j hj => hlt j (List.mem_cons_of_mem i hj))
      (fun j hj hmem => by
        rcases List.mem_cons.mp hmem with he | he
        · exact hnd2.1 (he ▸ hj)
        · exact hnR j (List.mem_cons_of_mem i hj) he)
    have hfold : resumePhase (i :: rest) s = resumePhase rest (topicStep s (.resume i)) := rfl
    rw [hfold]
    refine Phase1Inv_congr n (rest ++ i :: R) ((i :: rest) ++ R) _ ?_ hrest
    intro j
    constructor
    · intro hj
      rcases List.mem_append.mp hj with hj1 | hj1
      · exact List.mem_append.mpr (Or.inl (List.mem_cons_of_mem i hj1))
      · rcases List.mem_cons.mp hj1 with he | he
        · exact List.mem_append.mpr (Or.inl (he ▸ List.mem_cons_self i rest))
        · exact List.mem_append.mpr (Or.inr he)
    · intro hj
      rcases List.mem_append.mp hj with hj1 | hj1
      · rcases List.mem_cons.mp hj1 with he | he
        · exact List.mem_append.mpr (Or.inr (he ▸ List.mem_cons_self i R))
        · exact List.mem_append.mpr (Or.inl he)
      · exact List.mem_append.mpr (Or.inr (List.mem_cons_of_mem i hj1))

/-- Invariant of the finish phase: F is the set of callers that have
returned; every caller gets the resolved value o. -/
def Phase3Inv (n : Nat) (o : Option Nat) (F : List Nat) (s : TopicSys) : Prop :=
  s.result = some o ∧ s.creating = false ∧ s.createCalls = 1 ∧
  s.tasks.length = n ∧
  (∀ i, i < n → s.tasks[i]? = some (if i ∈ F then TStatus.done o else TStatus.waiting))

lemma Phase3Inv_congr (n : Nat) (o : Option Nat) (F1 F2 : List Nat) (s : TopicSys)
    (hm : ∀ i, i ∈ F1 ↔ i ∈ F2) (h : Phase3Inv n o F1 s) : Phase3Inv n o F2 s := by
  obtain ⟨h1, h2, h3, h4, h5⟩ := h
  refine ⟨h1, h2, h3, h4, ?_⟩
  intro i hi
  rw [h5 i hi]
  by_cases hiF : i ∈ F1
  · rw [if_pos hiF, if_pos ((hm i).mp hiF)]
  · rw [if_neg hiF, if_neg (fun h2 => hiF ((hm i).mpr h2))]

lemma phase3_step (n : Nat) (o : Option Nat) (F : List Nat) (s : TopicSys) (i : Nat)
    (hinv : Phase3Inv n o F s) (hi : i < n) (hiF : i ∉ F) :
    Phase3Inv n o (i :: F) (topicStep s (.finish i)) := by
  obtain ⟨h1, h2, h3, h4, h5⟩ := hinv
  have hti : s.tasks[i]? = some TStatus.waiting := by
    rw [h5 i hi, if_neg hiF]
  have hlt : i < s.tasks.length := by rw [h4]; exact hi
  simp only [topicStep]
  rw [hti, h1]
  refine ⟨rfl, h2, h3, ?_, ?_⟩
  · show (s.tasks.set i (TStatus.done o)).length = n
    rw [List.length_set, h4]
  · intro j hj
    by_cases hji : j = i
    · subst hji
      show (s.tasks.set j (TStatus.done o))[j]? = _
      rw [List.getElem?_set_self hlt, if_pos (List.mem_cons_self j F)]
    · show (s.tasks.set i (TStatus.done o))[j]? = _
      rw [List.getElem?_set_ne (fun he => hji he.symm), h5 j hj]
      by_cases hjF : j ∈ F
      · rw [if_pos hjF, if_pos (List.mem_cons_of_mem i hjF)]
      · rw [if_neg hjF, if_neg (by
          intro hmem
          rcases List.mem_cons.mp hmem with he | he
          · exact hji he
          · exact hjF he)]

lemma phase3_run (n : Nat) (o : Option Nat) :
    ∀ (fins : List Nat) (F : List Nat) (s : TopicSys),
      Phase3Inv n o F s → fins.Nodup → (∀ i ∈ fins, i < n) → (∀ i ∈ fins, i ∉ F) →
      Phase3Inv n o (fins ++ F) (finishPhase fins s) := by
  intro fins
  induction fins with
  | nil =>
    intro F s hinv _ _ _
    exact hinv
  | cons i rest ih =>
    intro F s hinv hnd hlt hnF
    have hstep := phase3_step n o F s i hinv (hlt i (List.mem_cons_self i rest))
      (hnF i (List.mem_cons_self i rest))
    have hnd2 := List.nodup_cons.mp hnd
    have hrest := ih (i :: F) (topicStep s (.finish i)) hstep hnd2.2
      (fun j hj => hlt j (List.mem_cons_of_mem i hj))
      (fun j hj hmem => by
        rcases List.mem_cons.mp hmem with he | he
        · exact hnd2.1 (he ▸ hj)
        · exact hnF j (List.mem_cons_of_mem i hj) he)
    have hfold : finishPhase (i :: rest) s = finishPhase rest (topicStep s (.finish i)) := rfl
    rw [hfold]
    refine Phase3Inv_congr n o (rest ++ i :: F) ((i :: rest) ++ F) _ ?_ hrest
    intro j
    constructor
    · intro hj
      rcases List.mem_append.mp hj with hj1 | hj1
      · exact List.mem_append.mpr (Or.inl (List.mem_cons_of_mem i hj1))
      · rcases List.mem_cons.mp hj1 with he | he
        · exact List.mem_append.mpr (Or.inl (he ▸ List.mem_cons_self i rest))
        · exact List.mem_append.mpr (Or.inr he)
    · intro hj
      rcases List.mem_append.mp hj with hj1 | hj1
      · rcases List.mem_cons.mp hj1 with he | he
        · exact List.mem_append.mpr (Or.inr (he ▸ List.mem_cons_self i F))
        · exact List.mem_append.mpr (Or.inl he)
      · exact List.mem_append.mpr (Or.inr (List.mem_cons_of_mem i hj1))

/-- C3: with no existing mapping and no creation in flight, N callers of
getOrCreateTopic interleaved in any order before the creation completes
start exactly one creation body - hence one createForumTopic call - and
after the body completes (successfully or not) and every caller returns,
all N callers hold the same value and the creatingTopics entry is gone. -/
theorem getOrCreateTopic_concurrent_dedup (n : Nat) (order fins : List Nat) (o : Option Nat)
    (hn : 0 < n) (ho : order.Perm (List.range n)) (hf : fins.Perm (List.range n)) :
    (resumePhase order (initTopicSys n)).createCalls = 1 ∧
    (finishPhase fins
      (topicStep (resumePhase order (initTopicSys n)) (.complete o))).createCalls = 1 ∧
    (∀ i, i < n →
      (finishPhase fins
        (topicStep (resumePhase order (initTopicSys n)) (.complete o))).tasks[i]? =
        some (.done o)) ∧
    (finishPhase fins
      (topicStep (resumePhase order (initTopicSys n)) (.complete o))).creating = false := by
  have hinv0 : Phase1Inv n [] (initTopicSys n) := by
    refine ⟨rfl, rfl, by simp [initTopicSys], rfl, List.length_replicate n _, ?_⟩
    intro i hi
    show (List.replicate n TStatus.pending)[i]? = _
    rw [List.getElem?_replicate_of_lt hi, if_neg (List.not_mem_nil i)]
  have hnd : order.Nodup := ho.symm.nodup (List.nodup_range n)
  have hmem : ∀ i ∈ order, i < n := fun i hi => List.mem_range.mp (ho.mem_iff.mp hi)
  have h1 := phase1_run n order [] (initTopicSys n) hinv0 hnd hmem
    (fun i _ => List.not_mem_nil i)
  obtain ⟨p1, p2, p3, p4, p5, p6⟩ := h1
  have hone : order ++ [] ≠ [] := by
    intro he
    rw [List.append_nil] at he
    have hlen := ho.length_eq
    rw [List.length_range, he] at hlen
    exact absurd hlen.symm (Nat.ne_of_gt hn)
  have hcreating : (resumePhase order (initTopicSys n)).creating = true := p3.mpr hone
  have hcalls1 : (resumePhase order (initTopicSys n)).createCalls = 1 := by
    rw [p4, if_neg hone]
  have hinv3 : Phase3Inv n o []
      (topicStep (resumePhase order (initTopicSys n)) (.complete o)) := by
    simp only [topicStep]
    rw [if_pos ⟨hcreating, p2⟩]
    refine ⟨rfl, rfl, hcalls1, p5, ?_⟩
    intro i hi
    show (resumePhase order (initTopicSys n)).tasks[i]? = _
    rw [p6 i hi, if_neg (List.not_mem_nil i),
      if_pos (List.mem_append.mpr (Or.inl (ho.mem_iff.mpr (List.mem_range.mpr hi))))]
  have hndf : fins.Nodup := hf.symm.nodup (List.nodup_range n)
  have hmemf : ∀ i ∈ fins, i < n := fun i hi => List.mem_range.mp (hf.mem_iff.mp hi)
  have h3 := phase3_run n o fins []
    (topicStep (resumePhase order (initTopicSys n)) (.complete o)) hinv3 hndf hmemf
    (fun i _ => List.not_mem_nil i)
  obtain ⟨q1, q2, q3, q4, q5⟩ := h3
  refine ⟨hcalls1, q3, ?_, q2⟩
  intro i hi
  rw [q5 i hi,
    if_pos (List.mem_append.mpr (Or.inl (hf.mem_iff.mpr (List.mem_range.mpr hi))))]

/-- C3 witness: three interleaved callers in a concrete order, with a
successful creation returning topic id 42; one creation call, all three
callers return 42, and the creatingTopics entry is gone. -/
theorem getOrCreateTopic_concurrent_dedup_witness :
    (resumePhase [2, 0, 1] (initTopicSys 3)).createCalls = 1 ∧
    (finishPhase [1, 2, 0]
      (topicStep (resumePhase [2, 0, 1] (initTopicSys 3))
        (.complete (some 42)))).createCalls = 1 ∧
    (finishPhase [1, 2, 0]
      (topicStep (resumePhase [2, 0, 1] (initTopicSys 3))
        (.complete (some 42)))).tasks[0]? = some (.done (some 42)) ∧
    (finishPhase [1, 2, 0]
      (topicStep (resumePhase [2, 0, 1] (initTopicSys 3))
        (.complete (some 42)))).tasks[1]? = some (.done (some 42)) ∧
    (finishPhase [1, 2, 0]
      (topicStep (resumePhase [2, 0, 1] (initTopicSys 3))
        (.complete (some 42)))).tasks[2]? = some (.done (some 42)) ∧
    (finishPhase [1, 2, 0]
      (topicStep (resumePhase [2, 0, 1] (initTopicSys 3))
        (.complete (some 42)))).creating = false := by
  obtain ⟨w1, w2, w3, w4⟩ :=
    getOrCreateTopic_concurrent_dedup 3 [2, 0, 1] [1, 2, 0] (some 42)
      (by decide) (by decide) (by decide)
  exact ⟨w1, w2, w3 0 (by decide), w3 1 (by decide), w3 2 (by decide), w4⟩
